import Mathlib

/-!
# Cloak: first-packet authentication and client configuration

A shallow embedding of `internal/server/auth.go`, `internal/server/websocket.go` and
`internal/client/state.go`.

Conventions of the embedding.

* A Go `byte` is a `Fin 256`; a `[]byte`, a fixed-size byte array and a Go `string`
  are all `List Byte` (a Go string is an immutable byte sequence).
* A Go function that can stop with a run-time panic (index out of range) returns an
  `Option`; `none` is the panic.
* Go's multiple results `(info, err)` are a tuple; a `nil` error or a `nil` function
  value is `none`.
* The standard library is modelled by its documented meaning over mathematical
  integers: a `time.Time` is an instant counted in nanoseconds, a `time.Duration`
  a number of nanoseconds. Go keeps a `Time` as a 64-bit count of seconds since year 1;
  the model covers the instants for which that count does not overflow, which holds for
  every clock reading within billions of years of the present.
* The calls `AuthFirstPacket` makes to its collaborators are recorded in program order,
  so that statements about what is called, and in which order, can be written down.
* Code of the repository that lives outside the embedded files (the AEAD primitive,
  the tolerance constant, the per-transport extraction) is a parameter.
-/

namespace Cloak

/-! ## Bytes, slices and the `bytes` and `encoding/binary` helpers -/

/-- One Go `byte`. -/
abbrev Byte := Fin 256

/-- The Go slice expression `s[lo:hi]` for `lo ≤ hi ≤ len(s)`. -/
def slice (s : List Byte) (lo hi : Nat) : List Byte :=
  (s.take hi).drop lo

/-- Go `bytes.TrimLeft` for a cutset of the single byte `c`. -/
def trimLeftByte (s : List Byte) (c : Byte) : List Byte :=
  s.dropWhile (fun b => b == c)

/-- Go `bytes.TrimRight` for a cutset of the single byte `c`. -/
def trimRightByte (s : List Byte) (c : Byte) : List Byte :=
  (s.reverse.dropWhile (fun b => b == c)).reverse

/-- Go `bytes.Trim(s, cutset)` for a cutset of the single byte `c`: every leading and
every trailing `c` is sliced off. -/
def bytes.Trim (s : List Byte) (c : Byte) : List Byte :=
  trimLeftByte (trimRightByte s c) c

/-- Go `binary.BigEndian.Uint64`: the first eight bytes read as a big-endian number. -/
def BigEndian.Uint64 (b : List Byte) : Nat :=
  (b.take 8).foldl (fun acc x => acc * 256 + x.val) 0

/-- Go `binary.BigEndian.Uint32`: the first four bytes read as a big-endian number. -/
def BigEndian.Uint32 (b : List Byte) : Nat :=
  (b.take 4).foldl (fun acc x => acc * 256 + x.val) 0

/-- Go conversion `int64(u)` of a `uint64`: two's complement reinterpretation. -/
def int64 (u : Nat) : Int :=
  if u % 2 ^ 64 < 2 ^ 63 then ((u % 2 ^ 64 : Nat) : Int) else ((u % 2 ^ 64 : Nat) : Int) - 2 ^ 64

/-! ## The `time` package -/

/-- Go `time.Duration`: a signed count of nanoseconds. -/
abbrev Duration := Int

/-- Go `time.Second`. -/
def Second : Duration := 1000000000

/-- Go `time.Time` as an instant: nanoseconds elapsed since the Unix epoch. -/
structure Time where
  unixNano : Int
deriving DecidableEq, Repr

/-- Seconds between Go's zero time (January 1, year 1, 00:00:00 UTC) and the Unix epoch. -/
def unixToInternal : Int := 62135596800

/-- Go `time.Unix(sec, nsec)`. For `sec` within 62135596800 of the largest `int64` Go's
second counter wraps around; the wrapped instant lies about 292 billion years before the
unwrapped one, so from a clock reading in the range of the model both are outside every
acceptance window. -/
def Time.Unix (sec nsec : Int) : Time :=
  ⟨sec * 1000000000 + nsec⟩

/-- Go `t.After(u)`: the instant `t` is strictly later than `u`. -/
def Time.After (t u : Time) : Bool :=
  decide (u.unixNano < t.unixNano)

/-- Go `t.Before(u)`: the instant `t` is strictly earlier than `u`. -/
def Time.Before (t u : Time) : Bool :=
  decide (t.unixNano < u.unixNano)

/-- Go `t.Add(d)`. -/
def Time.Add (t : Time) (d : Duration) : Time :=
  ⟨t.unixNano + d⟩

/-- Go `t.Truncate(d)`: `t` rounded down to a multiple of `d` since the zero time;
`t` itself when `d <= 0`. -/
def Time.Truncate (t : Time) (d : Duration) : Time :=
  if d ≤ 0 then t else t.Add (-((t.unixNano + unixToInternal * 1000000000) % d))

/-! ## Errors -/

/-- The two disguise transports `AuthFirstPacket` chooses between. -/
inductive Transport where
  | WebSocket
  | TLS
deriving DecidableEq, Repr

mutual
/-- An operand of a `fmt.Errorf` call. -/
inductive FmtArg where
  | error (e : GoError)
  | int (n : Int)
  | transport (t : Transport)
  | text (s : String)
  | bytes (b : List Byte)
/-- Go error values. The named constructors are the package-level `errors.New`
variables, each a distinct value; `Errorf` is the fresh value made by a `fmt.Errorf`
call with the verb `%v` (it carries the text only and wraps nothing); `foreign` is an
error value that comes out of a collaborator (AEAD, HTTP parser, base64). -/
inductive GoError where
  | ErrTimestampOutOfWindow
  | ErrUnreconisedProtocol
  | ErrReplay
  | ErrBadProxyMethod
  | ErrBadGET
  | ErrInvalidPubKey
  | ErrCiphertextLength
  | foreign (msg : String)
  | Errorf (format : String) (args : List FmtArg)
end

/-! ## `auth.go` -/

/-- Go `ClientInfo`. -/
structure ClientInfo where
  UID : List Byte
  SessionId : Nat
  ProxyMethod : List Byte
  EncryptionMethod : Byte
  Unordered : Bool
  Transport : Option Transport
deriving DecidableEq, Repr

/-- The zero value of `ClientInfo`. -/
def ClientInfo.zero : ClientInfo :=
  { UID := [], SessionId := 0, ProxyMethod := [], EncryptionMethod := 0,
    Unordered := false, Transport := none }

/-- Go `authFragments`. -/
structure authFragments where
  sharedSecret : List Byte
  randPubKey : List Byte
  ciphertextWithTag : List Byte
deriving DecidableEq, Repr

/-- Go constant `UNORDERED_FLAG`. -/
def UNORDERED_FLAG : Nat := 0x01

/-- The type of `util.AESGCMDecrypt(nonce, key, ciphertext)`. -/
abbrev Decrypter := List Byte → List Byte → List Byte → Except GoError (List Byte)

/-- Go `decryptClientInfo`. `AESGCMDecrypt` and `TIMESTAMP_TOLERANCE` are declared outside
the embedded files and are parameters; `now` is the reading the clock callback gives.
A plaintext shorter than 42 bytes makes `plaintext[41]` panic. -/
def decryptClientInfo (AESGCMDecrypt : Decrypter) (TIMESTAMP_TOLERANCE : Duration)
    (fragments : authFragments) (now : Time) : Option (ClientInfo × Option GoError) :=
  match AESGCMDecrypt (slice fragments.randPubKey 0 12) fragments.sharedSecret
      fragments.ciphertextWithTag with
  | .error e => some (ClientInfo.zero, some e)
  | .ok plaintext =>
    if plaintext.length < 42 then none
    else
      let info : ClientInfo :=
        { UID := slice plaintext 0 16
          SessionId := 0
          ProxyMethod := bytes.Trim (slice plaintext 16 28) 0
          EncryptionMethod := plaintext.getD 28 0
          Unordered := Nat.land (plaintext.getD 41 0).val UNORDERED_FLAG != 0
          Transport := none }
      let timestamp := int64 (BigEndian.Uint64 (slice plaintext 29 37))
      let clientTime := Time.Unix timestamp 0
      let serverTime := now
      if !(clientTime.After (serverTime.Truncate TIMESTAMP_TOLERANCE)
            && clientTime.Before (serverTime.Add TIMESTAMP_TOLERANCE)) then
        some (info, some (GoError.Errorf "%v: received timestamp %v"
          [FmtArg.error GoError.ErrTimestampOutOfWindow, FmtArg.int timestamp]))
      else
        some ({ info with SessionId := BigEndian.Uint32 (slice plaintext 37 41) }, none)

/-- Go `State`, the fields `AuthFirstPacket` reads or writes. The maps `usedRandom` and
`ProxyBook` are kept by their key sets, the clock callback `Now` by the reading it gives. -/
structure State where
  staticPv : List Byte
  usedRandom : List (List Byte)
  Now : Time
  ProxyBook : List (List Byte)
deriving DecidableEq, Repr

/-- Modelled from the spec: `State.registerRandom` is declared outside the embedded files.
The spec (Replay Guard) gives its contract: a single check-and-insert on the replay set
whose result is true iff this exact key was already registered. -/
def registerRandom (sta : State) (r : List Byte) : Bool × State :=
  (decide (r ∈ sta.usedRandom), { sta with usedRandom := r :: sta.usedRandom })

/-- The collaborators `AuthFirstPacket` reaches that are declared outside the embedded files:
the per-transport extraction, the AEAD primitive and the tolerance constant. The type `ρ`
stands for Go's `Responder` function values. -/
structure Deps (ρ : Type) where
  processFirstPacket : Transport → List Byte → List Byte → authFragments × Option ρ × Option GoError
  AESGCMDecrypt : Decrypter
  TIMESTAMP_TOLERANCE : Duration

/-- One call `AuthFirstPacket` makes, recorded in program order. -/
inductive Call where
  | processFirstPacket (t : Transport)
  | registerRandom (r : List Byte)
  | decryptClientInfo (fragments : authFragments)
deriving DecidableEq, Repr

/-- The three results of a call of `AuthFirstPacket` that returns, with the state it leaves
behind and the calls it made. -/
structure AuthResult (ρ : Type) where
  info : ClientInfo
  finisher : Option ρ
  err : Option GoError
  sta : State
  calls : List Call

/-- How a call of `AuthFirstPacket` ends: it returns, or it panics on an index out of range,
leaving the state and the calls made up to that point. -/
inductive Outcome (ρ : Type) where
  | returned (r : AuthResult ρ)
  | panicked (sta : State) (calls : List Call)

/-- The state a call leaves behind. -/
def Outcome.sta {ρ : Type} : Outcome ρ → State
  | Outcome.returned r => r.sta
  | Outcome.panicked sta _ => sta

/-- The calls made, in program order. -/
def Outcome.calls {ρ : Type} : Outcome ρ → List Call
  | Outcome.returned r => r.calls
  | Outcome.panicked _ calls => calls

/-- The call returned with a `nil` error. -/
def Outcome.accepted {ρ : Type} : Outcome ρ → Bool
  | Outcome.returned r => r.err.isNone
  | Outcome.panicked _ _ => false

/-- The transport chosen by the `switch firstPacket[0]`; `none` is the `default` branch. -/
def detectTransport (b : Byte) : Option Transport :=
  if b = 0x47 then some Transport.WebSocket
  else if b = 0x16 then some Transport.TLS
  else none

/-- Go `AuthFirstPacket`. The results `info`, `finisher` and `err` are named results, so
every bare `return` hands back whatever they hold at that point. An empty `firstPacket`
panics at `firstPacket[0]`, a plaintext shorter than 42 bytes inside `decryptClientInfo`. -/
def AuthFirstPacket {ρ : Type} (deps : Deps ρ) (firstPacket : List Byte) (sta : State) :
    Outcome ρ :=
  match firstPacket with
  | [] => Outcome.panicked sta []
  | b :: _ =>
    match detectTransport b with
    | none =>
      Outcome.returned
        { info := ClientInfo.zero, finisher := none,
          err := some GoError.ErrUnreconisedProtocol, sta := sta, calls := [] }
    | some transport =>
      match deps.processFirstPacket transport firstPacket sta.staticPv with
      | (_, finisher, some e) =>
        Outcome.returned
          { info := ClientInfo.zero, finisher := finisher, err := some e, sta := sta,
            calls := [Call.processFirstPacket transport] }
      | (fragments, finisher, none) =>
        let reg := registerRandom sta fragments.randPubKey
        if reg.1 then
          Outcome.returned
            { info := ClientInfo.zero, finisher := finisher, err := some GoError.ErrReplay,
              sta := reg.2,
              calls := [Call.processFirstPacket transport,
                        Call.registerRandom fragments.randPubKey] }
        else
          match decryptClientInfo deps.AESGCMDecrypt deps.TIMESTAMP_TOLERANCE fragments
              reg.2.Now with
          | none =>
            Outcome.panicked reg.2
              [Call.processFirstPacket transport, Call.registerRandom fragments.randPubKey,
               Call.decryptClientInfo fragments]
          | some (info, some e) =>
            Outcome.returned
              { info := info, finisher := finisher,
                err := some (GoError.Errorf
                  "transport %v in correct format but not Cloak: %v"
                  [FmtArg.transport transport, FmtArg.error e]),
                sta := reg.2,
                calls := [Call.processFirstPacket transport,
                          Call.registerRandom fragments.randPubKey,
                          Call.decryptClientInfo fragments] }
          | some (info, none) =>
            if info.ProxyMethod ∈ reg.2.ProxyBook then
              Outcome.returned
                { info := { info with Transport := some transport }, finisher := finisher,
                  err := none, sta := reg.2,
                  calls := [Call.processFirstPacket transport,
                            Call.registerRandom fragments.randPubKey,
                            Call.decryptClientInfo fragments] }
            else
              Outcome.returned
                { info := info, finisher := finisher,
                  err := some GoError.ErrBadProxyMethod, sta := reg.2,
                  calls := [Call.processFirstPacket transport,
                            Call.registerRandom fragments.randPubKey,
                            Call.decryptClientInfo fragments] }

/-- A sequence of `AuthFirstPacket` calls on one server: each step gets a first packet and
the clock reading of that moment; the replay set is threaded through. A panic is not
recovered anywhere in the embedded code, so it ends the process and the sequence. -/
def runAuth {ρ : Type} (deps : Deps ρ) : State → List (List Byte × Time) → List (Outcome ρ)
  | _, [] => []
  | sta, (pkt, t) :: rest =>
    match AuthFirstPacket deps pkt { sta with Now := t } with
    | Outcome.panicked s c => [Outcome.panicked s c]
    | Outcome.returned r => Outcome.returned r :: runAuth deps r.sta rest

/-- The ephemeral public key a first packet carries, when the packet is recognised and its
extraction succeeds. -/
def extractedKey {ρ : Type} (deps : Deps ρ) (firstPacket : List Byte) (staticPv : List Byte) :
    Option (List Byte) :=
  match firstPacket with
  | [] => none
  | b :: _ =>
    match detectTransport b with
    | none => none
    | some transport =>
      match deps.processFirstPacket transport firstPacket staticPv with
      | (_, _, some _) => none
      | (fragments, _, none) => some fragments.randPubKey

/-! ## `websocket.go` -/

/-- Go `authenticationInfo`, the fields `unmarshalHidden` fills. -/
structure authenticationInfo where
  sharedSecret : List Byte
  nonce : List Byte
  ciphertextWithTag : List Byte
deriving DecidableEq, Repr

/-- The zero value of `authenticationInfo`. -/
def authenticationInfo.zero : authenticationInfo :=
  { sharedSecret := [], nonce := [], ciphertextWithTag := [] }

/-- Go `http.Request`, by the one thing `handshake` asks of it: `req.Header.Get(name)`. -/
structure Request where
  HeaderGet : String → List Byte

/-- The collaborators of `WebSocket.handshake`: `http.ReadRequest` and
`base64.StdEncoding.DecodeString` of the standard library (the latter returns the bytes
decoded so far together with its error), `ecdh.Unmarshal` and `ecdh.GenerateSharedSecret`
of the repository. -/
structure WSDeps where
  ReadRequest : List Byte → Except GoError Request
  DecodeString : List Byte → List Byte × Option GoError
  Unmarshal : List Byte → Option (List Byte)
  GenerateSharedSecret : List Byte → List Byte → List Byte

/-- Go `unmarshalHidden`. -/
def unmarshalHidden (deps : WSDeps) (hidden : List Byte) (staticPv : List Byte) :
    authenticationInfo × Option GoError :=
  if hidden.length < 96 then (authenticationInfo.zero, some GoError.ErrBadGET)
  else
    match deps.Unmarshal (slice hidden 0 32) with
    | none => (authenticationInfo.zero, some GoError.ErrInvalidPubKey)
    | some ephPub =>
      let ai : authenticationInfo :=
        { nonce := slice hidden 0 12
          sharedSecret := deps.GenerateSharedSecret staticPv ephPub
          ciphertextWithTag := slice hidden 32 hidden.length }
      if ai.ciphertextWithTag.length ≠ 64 then
        (ai, some (GoError.Errorf "%v: %v"
          [FmtArg.error GoError.ErrCiphertextLength, FmtArg.int ai.ciphertextWithTag.length]))
      else (ai, none)

/-- The closure `WebSocket.handshake` returns as `finisher`, by what it captures. -/
structure wsFinisher where
  reqPacket : List Byte
  sharedSecret : List Byte
deriving DecidableEq, Repr

/-- Go `WebSocket.handshake`. The error of `DecodeString` is stored in `err` and then
overwritten by the result of `unmarshalHidden` without having been read. The connection
argument is only captured by the closure and is left out. -/
def WebSocket.handshake (deps : WSDeps) (reqPacket : List Byte) (privateKey : List Byte) :
    authenticationInfo × Option wsFinisher × Option GoError :=
  match deps.ReadRequest reqPacket with
  | .error e =>
    (authenticationInfo.zero, none,
      some (GoError.Errorf "failed to parse first HTTP GET: %v" [FmtArg.error e]))
  | .ok req =>
    let hiddenData := (deps.DecodeString (req.HeaderGet "hidden")).1
    match unmarshalHidden deps hiddenData privateKey with
    | (ai, some e) =>
      (ai, none, some (GoError.Errorf
        "failed to unmarshal hidden data from WS into authenticationInfo: %v"
        [FmtArg.error e]))
    | (ai, none) =>
      (ai, some { reqPacket := reqPacket, sharedSecret := ai.sharedSecret }, none)

/-! ### A model of `base64.StdEncoding` for concrete inputs -/

/-- The decode map of the standard alphabet; `none` is Go's `0xff`. -/
def decodeMap (c : Byte) : Option Nat :=
  if 65 ≤ c.val ∧ c.val ≤ 90 then some (c.val - 65)
  else if 97 ≤ c.val ∧ c.val ≤ 122 then some (c.val - 71)
  else if 48 ≤ c.val ∧ c.val ≤ 57 then some (c.val + 4)
  else if c.val = 43 then some 62
  else if c.val = 47 then some 63
  else none

/-- Line feed or carriage return, which the decoder skips. -/
def isNewline (c : Byte) : Bool :=
  c.val = 10 || c.val = 13

/-- The `dlen - 1` bytes a quantum of `dlen` six-bit values yields. -/
def quantumBytes (dbuf : List Nat) : List Byte :=
  let val := dbuf.getD 0 0 * 262144 + dbuf.getD 1 0 * 4096 + dbuf.getD 2 0 * 64 + dbuf.getD 3 0
  ([Fin.ofNat (val / 65536), Fin.ofNat (val / 256), Fin.ofNat val] : List Byte).take
    (dbuf.length - 1)

/-- Go `decodeQuantum` of the padded, non-strict standard encoding: the source left, the
bytes written and whether the input is corrupt. `dbuf` holds the values read so far. -/
def decodeQuantum : List Byte → List Nat → List Byte × List Byte × Bool
  | [], dbuf => ([], [], decide (dbuf.length ≠ 0))
  | c :: rest, dbuf =>
    match decodeMap c with
    | some v =>
      if dbuf.length = 3 then (rest, quantumBytes (dbuf ++ [v]), false)
      else decodeQuantum rest (dbuf ++ [v])
    | none =>
      if isNewline c then decodeQuantum rest dbuf
      else if c.val ≠ 61 then (rest, [], true)
      else if dbuf.length < 2 then (rest, [], true)
      else if dbuf.length = 2 then
        match rest.dropWhile isNewline with
        | [] => ([], [], true)
        | d :: rest2 =>
          if d.val ≠ 61 then (d :: rest2, [], true)
          else
            ((rest2.dropWhile isNewline), quantumBytes dbuf,
              !(rest2.dropWhile isNewline).isEmpty)
      else
        ((rest.dropWhile isNewline), quantumBytes dbuf, !(rest.dropWhile isNewline).isEmpty)

/-- The loop of Go `Encoding.Decode`: quantum after quantum until the source is used up or
corrupt; the bytes written before the corruption are kept. Every quantum consumes at least
one source byte, so `src.length` rounds are enough. -/
def decodeLoop : Nat → List Byte → List Byte → List Byte × Bool
  | 0, _, acc => (acc, false)
  | fuel + 1, src, acc =>
    match src with
    | [] => (acc, false)
    | c :: rest =>
      match decodeQuantum (c :: rest) [] with
      | (_, out, true) => ((acc ++ out), true)
      | (left, out, false) => decodeLoop fuel left (acc ++ out)

/-- Go `base64.StdEncoding.DecodeString`: the decoded bytes and, on corrupt input, Go's
`CorruptInputError` next to the bytes decoded before it. -/
def StdEncoding.DecodeString (s : List Byte) : List Byte × Option GoError :=
  match decodeLoop s.length s [] with
  | (out, true) => (out, some (GoError.foreign "base64.CorruptInputError"))
  | (out, false) => (out, none)

/-! ## The plaintext layout as the specification words it -/

/-- Go `binary.BigEndian.PutUint64`: the eight bytes of `v`, most significant first. -/
def BigEndian.PutUint64 (v : Nat) : List Byte :=
  [Fin.ofNat (v / 2 ^ 56), Fin.ofNat (v / 2 ^ 48), Fin.ofNat (v / 2 ^ 40), Fin.ofNat (v / 2 ^ 32),
   Fin.ofNat (v / 2 ^ 24), Fin.ofNat (v / 2 ^ 16), Fin.ofNat (v / 2 ^ 8), Fin.ofNat v]

/-- Go `binary.BigEndian.PutUint32`: the four bytes of `v`, most significant first. -/
def BigEndian.PutUint32 (v : Nat) : List Byte :=
  [Fin.ofNat (v / 2 ^ 24), Fin.ofNat (v / 2 ^ 16), Fin.ofNat (v / 2 ^ 8), Fin.ofNat v]

/-- Go conversion `uint64(t)` of an `int64`. -/
def uint64 (t : Int) : Nat :=
  (t % 2 ^ 64).toNat

/-- The client metadata plaintext of the specification:
`UID[16] ‖ ProxyMethod[12] ‖ EncryptionMethod[1] ‖ Timestamp[8] ‖ SessionId[4] ‖ Flags[1]`,
the name right-padded with NUL, the integers big-endian. -/
def specPlaintext (uid name : List Byte) (method : Byte) (timestamp : Int) (sessionId : Nat)
    (flags : Byte) : List Byte :=
  uid ++ (name ++ List.replicate (12 - name.length) 0) ++ [method]
    ++ BigEndian.PutUint64 (uint64 timestamp) ++ BigEndian.PutUint32 sessionId ++ [flags]

/-- The padding rule as the specification words it: only trailing NUL bytes are stripped. -/
def specTrimTrailingNUL (s : List Byte) : List Byte :=
  (s.reverse.dropWhile (fun b => b == 0)).reverse

/-! ### The closure `finisher` of `WebSocket.handshake` -/

/-- The type of `util.AESGCMEncrypt(nonce, key, plaintext)`. -/
abbrev Encrypter := List Byte → List Byte → List Byte → Except GoError (List Byte)

/-- What a call of the finisher did: the bytes it handed to `preparedConn.Write`, when it
got that far, and the error it returned. -/
structure finisherResult where
  written : Option (List Byte)
  err : Option GoError

/-- The body of the closure `finisher`, from the point where the WebSocket upgrade has been
served. `nonce` is what `rand.Read` put into the 12-byte buffer, `writeErr` the error
`preparedConn.Write` returns. `AESGCMEncrypt` is declared outside the embedded files. -/
def wsFinisher.call (AESGCMEncrypt : Encrypter) (fin : wsFinisher) (nonce : List Byte)
    (writeErr : Option GoError) (sessionKey : List Byte) : finisherResult :=
  match AESGCMEncrypt nonce fin.sharedSecret sessionKey with
  | .error e =>
    { written := none
      err := some (GoError.Errorf "failed to encrypt reply: %v" [FmtArg.error e]) }
  | .ok encryptedKey =>
    let reply := nonce ++ encryptedKey
    match writeErr with
    | some e =>
      { written := some reply
        err := some (GoError.Errorf "failed to write reply: %v" [FmtArg.error e]) }
    | none => { written := some reply, err := none }

/-! ## `client/state.go` -/

/-- The bytes of a string literal of the source; every literal there is ASCII. -/
def ascii (s : String) : List Byte :=
  s.data.map (fun c => Fin.ofNat c.toNat)

/-- Go `strings.Replace(s, old, new, -1)` for a non-empty `old`: the occurrences of `old`
are replaced from left to right without overlap. The counter says how many bytes of an
occurrence already replaced are still to be skipped. -/
def strings.replaceFrom (old new : List Byte) : Nat → List Byte → List Byte
  | _, [] => []
  | skip + 1, _ :: rest => strings.replaceFrom old new skip rest
  | 0, c :: rest =>
    if old.isPrefixOf (c :: rest) then new ++ strings.replaceFrom old new (old.length - 1) rest
    else c :: strings.replaceFrom old new 0 rest

/-- Go `strings.Replace(s, old, new, -1)` for a non-empty `old`. -/
def strings.Replace (s old new : List Byte) : List Byte :=
  strings.replaceFrom old new 0 s

/-- Go `strings.Split(s, sep)` for a separator of the single byte `sep`: the pieces between
the separators, at least one piece. -/
def strings.Split : List Byte → Byte → List (List Byte)
  | [], _ => [[]]
  | c :: rest, sep =>
    if c = sep then [] :: strings.Split rest sep
    else
      match strings.Split rest sep with
      | [] => [[c]]
      | piece :: pieces => (c :: piece) :: pieces

/-- Go `strings.SplitN(s, sep, 2)` for a separator of the single byte `sep`: the whole of
`s` when it has no separator, else what is before the first separator and what is after. -/
def strings.SplitN2 (s : List Byte) (sep : Byte) : List (List Byte) :=
  match s.dropWhile (fun c => c != sep) with
  | [] => [s]
  | _ :: after => [s.takeWhile (fun c => c != sep), after]

/-- Go `strings.Contains(s, sub)` for a `sub` of the single byte `c`. -/
def strings.Contains (s : List Byte) (c : Byte) : Bool :=
  s.contains c

/-- Go `rawConfig`. A Go `int` is kept as an integer in the `int64` range. -/
structure rawConfig where
  ServerName : List Byte
  ProxyMethod : List Byte
  EncryptionMethod : List Byte
  UID : List Byte
  PublicKey : List Byte
  NumConn : Int
  LocalHost : List Byte
  LocalPort : List Byte
  RemoteHost : List Byte
  RemotePort : List Byte
  UDP : Bool
  BrowserSig : List Byte
  Transport : List Byte
  StreamTimeout : Int
  KeepAlive : Int
deriving DecidableEq, Repr

/-- Go `localConnConfig`. -/
structure localConnConfig where
  LocalAddr : List Byte
  Timeout : Duration
deriving DecidableEq, Repr

/-- The closure `elem` of `ssvToJson`. -/
def ssvToJson_elem (val : List Byte) (lst : List (List Byte)) : Bool :=
  match lst with
  | [] => false
  | v :: rest => if val = v then true else ssvToJson_elem val rest

/-- The closure `unescape` of `ssvToJson`: three replacements, one after the other. -/
def ssvToJson_unescape (s : List Byte) : List Byte :=
  strings.Replace
    (strings.Replace (strings.Replace s (ascii "\\\\") (ascii "\\")) (ascii "\\=") (ascii "="))
    (ascii "\\;") (ascii ";")

/-- The slice `unquoted` of `ssvToJson`. -/
def ssvToJson_unquoted : List (List Byte) :=
  [ascii "NumConn", ascii "StreamTimeout", ascii "KeepAlive", ascii "UDP"]

/-- The `for _, ln := range lines` loop of `ssvToJson` with `ret` as accumulator: an empty
line ends the loop; a line without `=` makes `sp[1]` panic (`none`). -/
def ssvToJson_loop : List (List Byte) → List Byte → Option (List Byte)
  | [], ret => some ret
  | ln :: rest, ret =>
    if ln = [] then some ret
    else
      match strings.SplitN2 ln 61 with
      | [key, value] =>
        if ssvToJson_elem key ssvToJson_unquoted then
          ssvToJson_loop rest (ret ++ (ascii "\"" ++ key ++ ascii "\":" ++ value ++ ascii ","))
        else
          ssvToJson_loop rest
            (ret ++ (ascii "\"" ++ key ++ ascii "\":\"" ++ value ++ ascii "\","))
      | _ => none

/-- Go `ssvToJson`; `none` is a run-time panic. The unescaping comes first, the split at
`;` second. `ret[:len(ret)-1]` needs a `ret` that is not empty. -/
def ssvToJson (ssv : List Byte) : Option (List Byte) :=
  match ssvToJson_loop (strings.Split (ssvToJson_unescape ssv) 59) (ascii "\x7b") with
  | none => none
  | some ret =>
    if ret.length = 0 then none
    else some (ret.take (ret.length - 1) ++ ascii "\x7d")

/-- The collaborators of `ParseConfig`, both of the standard library: `ioutil.ReadFile` and
`json.Unmarshal` into a fresh `rawConfig` (the value filled in, and the error). -/
structure ParseDeps where
  ReadFile : List Byte → Except GoError (List Byte)
  jsonUnmarshal : List Byte → rawConfig × Option GoError

/-- Go `ParseConfig`; `none` is a run-time panic, a `nil` pointer result is `none` inside. -/
def ParseConfig (deps : ParseDeps) (conf : List Byte) :
    Option (Option rawConfig × Option GoError) :=
  if strings.Contains conf 59 && strings.Contains conf 61 then
    match ssvToJson conf with
    | none => none
    | some content => some (some (deps.jsonUnmarshal content).1, (deps.jsonUnmarshal content).2)
  else
    match deps.ReadFile conf with
    | .error e => some (none, some e)
    | .ok content => some (some (deps.jsonUnmarshal content).1, (deps.jsonUnmarshal content).2)

/-- Go `browser`, the two implementations `SplitConfigs` chooses between. -/
inductive browser where
  | Firefox
  | Chrome
deriving DecidableEq, Repr

/-- The client transports `SplitConfigs` chooses between. -/
inductive clientTransport where
  | WSOverTLS (cdnDomainPort : List Byte)
  | DirectTLS (b : browser)
deriving DecidableEq, Repr

/-- Go `remoteConnConfig`, the fields `SplitConfigs` sets; an unset interface is `none`. -/
structure remoteConnConfig where
  RemoteAddr : List Byte
  NumConn : Int
  Transport : Option clientTransport
  KeepAlive : Duration
deriving DecidableEq, Repr

/-- Go `authInfo`, the fields `SplitConfigs` sets; an unset key is `none`. -/
structure authInfo where
  UID : List Byte
  Unordered : Bool
  MockDomain : List Byte
  ProxyMethod : List Byte
  ServerPubKey : Option (List Byte)
  EncryptionMethod : Byte
deriving DecidableEq, Repr

/-- The collaborators of `SplitConfigs`: `ecdh.Unmarshal` and the three `mux.E_METHOD_`
constants of the repository, `strings.ToLower` and `net.JoinHostPort` of the standard
library. -/
structure SplitDeps where
  Unmarshal : List Byte → Option (List Byte)
  ToLower : List Byte → List Byte
  JoinHostPort : List Byte → List Byte → List Byte
  E_METHOD_PLAIN : Byte
  E_METHOD_AES_GCM : Byte
  E_METHOD_CHACHA20_POLY1305 : Byte

/-- The four results of `SplitConfigs`; a `nil` pointer or error is `none`. -/
structure SplitResult where
  loc : Option localConnConfig
  remote : Option remoteConnConfig
  auth : Option authInfo
  err : Option GoError

/-- The closure `nullErr` of `SplitConfigs`: its own named results, all `nil` but `err`. -/
def SplitConfigs_nullErr (field : String) : SplitResult :=
  { loc := none, remote := none, auth := none,
    err := some (GoError.Errorf "%v cannot be empty" [FmtArg.text field]) }

/-- Go conversion to `int64` (and `time.Duration`) of the result of a multiplication that
may overflow: the result is taken modulo `2 ^ 64` into the signed range. -/
def wrap64 (x : Int) : Int :=
  int64 (x % 2 ^ 64).toNat

/-- The `switch` on `raw.Transport` and, inside it, on `raw.BrowserSig`. -/
def SplitConfigs_transport (deps : SplitDeps) (raw : rawConfig) (remoteAddr : List Byte) :
    clientTransport :=
  if deps.ToLower raw.Transport = ascii "cdn" then clientTransport.WSOverTLS remoteAddr
  else if deps.ToLower raw.BrowserSig = ascii "firefox" then
    clientTransport.DirectTLS browser.Firefox
  else clientTransport.DirectTLS browser.Chrome

/-- The `switch` on `raw.EncryptionMethod`; `none` is the `default` branch. -/
def SplitConfigs_encryptionMethod (deps : SplitDeps) (raw : rawConfig) : Option Byte :=
  if deps.ToLower raw.EncryptionMethod = ascii "plain" then some deps.E_METHOD_PLAIN
  else if deps.ToLower raw.EncryptionMethod = ascii "aes-gcm" then some deps.E_METHOD_AES_GCM
  else if deps.ToLower raw.EncryptionMethod = ascii "chacha20-poly1305" then
    some deps.E_METHOD_CHACHA20_POLY1305
  else none

/-- Go `rawConfig.SplitConfigs`. `return nullErr(..)` hands back the results of the
closure, so `local`, `remote` and `auth` are then `nil`; a bare `return` hands back the named
results as they stand. The field name passed to `nullErr` for an empty `ProxyMethod` is
`"ServerName"` in the source, and the keep-alive of a positive `raw.KeepAlive` is computed
from `remote.KeepAlive`, which is still zero at that point. -/
def SplitConfigs (deps : SplitDeps) (raw : rawConfig) : SplitResult :=
  let auth0 : authInfo :=
    { UID := raw.UID, Unordered := raw.UDP, MockDomain := [], ProxyMethod := [],
      ServerPubKey := none, EncryptionMethod := 0 }
  if raw.ServerName = [] then SplitConfigs_nullErr "ServerName"
  else
    let auth1 := { auth0 with MockDomain := raw.ServerName }
    if raw.ProxyMethod = [] then SplitConfigs_nullErr "ServerName"
    else
      let auth2 := { auth1 with ProxyMethod := raw.ProxyMethod }
      if raw.UID.length = 0 then SplitConfigs_nullErr "UID"
      else if raw.PublicKey.length = 0 then SplitConfigs_nullErr "PublicKey"
      else
        match deps.Unmarshal raw.PublicKey with
        | none =>
          { loc := none, remote := none, auth := some auth2,
            err := some (GoError.Errorf "failed to unmarshal Public key" []) }
        | some pub =>
          let auth3 := { auth2 with ServerPubKey := some pub }
          match SplitConfigs_encryptionMethod deps raw with
          | none =>
            { loc := none, remote := none, auth := some auth3,
              err := some (GoError.Errorf "unknown encryption method %v"
                [FmtArg.bytes raw.EncryptionMethod]) }
          | some method =>
            let auth4 := { auth3 with EncryptionMethod := method }
            if raw.RemoteHost = [] then SplitConfigs_nullErr "RemoteHost"
            else if raw.RemotePort = [] then SplitConfigs_nullErr "RemotePort"
            else
              let remoteAddr := deps.JoinHostPort raw.RemoteHost raw.RemotePort
              if raw.NumConn = 0 then SplitConfigs_nullErr "NumConn"
              else
                let remote1 : remoteConnConfig :=
                  { RemoteAddr := remoteAddr, NumConn := raw.NumConn,
                    Transport := some (SplitConfigs_transport deps raw remoteAddr),
                    KeepAlive := 0 }
                let remote2 : remoteConnConfig :=
                  if raw.KeepAlive ≤ 0 then { remote1 with KeepAlive := -1 }
                  else { remote1 with KeepAlive := wrap64 (remote1.KeepAlive * Second) }
                if raw.LocalHost = [] then SplitConfigs_nullErr "LocalHost"
                else if raw.LocalPort = [] then SplitConfigs_nullErr "LocalPort"
                else
                  let local1 : localConnConfig :=
                    { LocalAddr := deps.JoinHostPort raw.LocalHost raw.LocalPort
                      Timeout :=
                        if raw.StreamTimeout = 0 then wrap64 (300 * Second)
                        else wrap64 (raw.StreamTimeout * Second) }
                  { loc := some local1, remote := some remote2, auth := some auth4,
                    err := none }

/-! ## Concrete inputs -/

/-- The UID `00112233445566778899aabbccddeeff`. -/
def sampleUID : List Byte :=
  [0x00, 0x11, 0x22, 0x33, 0x44, 0x55, 0x66, 0x77, 0x88, 0x99, 0xaa, 0xbb, 0xcc, 0xdd, 0xee, 0xff]

/-- The proxy method name `shadowsocks`. -/
def sampleName : List Byte :=
  [115, 104, 97, 100, 111, 119, 115, 111, 99, 107, 115]

/-- A 48-byte plaintext as AES-GCM returns it for a 64-byte ciphertext with tag: UID
`sampleUID`, method `name`, encryption method 1, timestamp `t`, session id `0x01020304`,
flag byte `flags`, and six more bytes. -/
def samplePlaintext (name : List Byte) (t : Int) (flags : Byte) : List Byte :=
  specPlaintext sampleUID name 1 t 0x01020304 flags ++ [9, 9, 9, 9, 9, 9]

/-- An AEAD step that succeeds with the plaintext `p`. -/
def decryptsTo (p : List Byte) : Decrypter :=
  fun _ _ _ => Except.ok p

/-- An AEAD step that fails authentication. -/
def decryptFails : Decrypter :=
  fun _ _ _ => Except.error (GoError.foreign "cipher: message authentication failed")

/-- Fragments of the right sizes. -/
def sampleFragments : authFragments :=
  { sharedSecret := List.replicate 32 7
    randPubKey := List.replicate 32 5
    ciphertextWithTag := List.replicate 64 3 }

/-- A tolerance of 180 seconds. -/
def sampleTolerance : Duration := 180 * Second

/-- The server clock at Unix second 1000000000, which is 100 seconds past a multiple of
180 seconds. -/
def sampleNow : Time := ⟨1000000000 * 1000000000⟩

/-- An extraction for concrete runs: the key is bytes 1..33 of the packet, the ciphertext
with tag bytes 33..97, the shared secret the static key; it hands back a responder. -/
def sampleExtract : Transport → List Byte → List Byte →
    authFragments × Option Unit × Option GoError :=
  fun _ pkt pv =>
    ({ sharedSecret := pv, randPubKey := slice pkt 1 33, ciphertextWithTag := slice pkt 33 97 },
      some (), none)

/-- Collaborators for concrete runs, with the AEAD step left open. -/
def sampleDeps (dec : Decrypter) : Deps Unit :=
  { processFirstPacket := sampleExtract, AESGCMDecrypt := dec,
    TIMESTAMP_TOLERANCE := sampleTolerance }

/-- A server state with an empty replay set and the proxy book `shadowsocks`. -/
def sampleState : State :=
  { staticPv := List.replicate 32 1, usedRandom := [], Now := sampleNow,
    ProxyBook := [sampleName] }

/-- A first packet with the TLS leading byte, a key of 32 bytes `5` and 64 further bytes. -/
def samplePacket : List Byte :=
  0x16 :: (List.replicate 32 5 ++ List.replicate 64 3)

/-- The result of the first, accepted call in the sample run. -/
def sampleAccepted : AuthResult Unit :=
  { info := { UID := sampleUID, SessionId := 0x01020304, ProxyMethod := sampleName,
              EncryptionMethod := 1, Unordered := false, Transport := some Transport.TLS }
    finisher := some ()
    err := none
    sta := { sampleState with usedRandom := [List.replicate 32 5] }
    calls := [Call.processFirstPacket Transport.TLS, Call.registerRandom (List.replicate 32 5),
              Call.decryptClientInfo
                { sharedSecret := List.replicate 32 1, randPubKey := List.replicate 32 5,
                  ciphertextWithTag := List.replicate 64 3 }] }

/-- The header value `QUFB` repeated 32 times, which is the base64 text of 96 bytes `A`,
followed by the character `!`, which is outside the base64 alphabet. -/
def sampleHidden : List Byte :=
  (List.replicate 32 [81, 85, 70, 66]).flatten ++ [33]

/-- The request packet `GET / HTTP/1.1`, `Host: a`, `hidden: ` followed by `sampleHidden`,
each line ended by CR LF, and the empty line that ends the header. -/
def sampleGET : List Byte :=
  [71, 69, 84, 32, 47, 32, 72, 84, 84, 80, 47, 49, 46, 49, 13, 10,
   72, 111, 115, 116, 58, 32, 97, 13, 10, 104, 105, 100, 100, 101, 110, 58, 32]
    ++ sampleHidden ++ [13, 10, 13, 10]

/-- Collaborators of `handshake` for a concrete run: an HTTP parser that knows the packet
`sampleGET` and its `hidden` header, the base64 model above, a key parser that takes any
32 bytes (as X25519 does) and a stand-in for the key agreement. -/
def sampleWSDeps : WSDeps :=
  { ReadRequest := fun pkt =>
      if pkt = sampleGET then
        Except.ok { HeaderGet := fun name => if name = "hidden" then sampleHidden else [] }
      else Except.error (GoError.foreign "malformed HTTP request")
    DecodeString := StdEncoding.DecodeString
    Unmarshal := fun b => if b.length = 32 then some b else none
    GenerateSharedSecret := fun pv pub => List.zipWith (fun x y => x + y) pv pub }

/-! ## The semicolon-separated format as the claims word it -/

/-- One item `key=value` of the semicolon-separated text. -/
def ssvItem (kv : List Byte × List Byte) : List Byte :=
  kv.1 ++ ascii "=" ++ kv.2

/-- The text `k1=v1;...;kn=vn` of a list of pairs. -/
def ssvText : List (List Byte × List Byte) → List Byte
  | [] => []
  | [kv] => ssvItem kv
  | kv :: rest => ssvItem kv ++ ascii ";" ++ ssvText rest

/-- The JSON entry of a pair: `"key":value` for the keys `NumConn`, `StreamTimeout`,
`KeepAlive` and `UDP`, and `"key":"value"` for every other key. -/
def jsonEntry (kv : List Byte × List Byte) : List Byte :=
  if kv.1 ∈ [ascii "NumConn", ascii "StreamTimeout", ascii "KeepAlive", ascii "UDP"] then
    ascii "\"" ++ kv.1 ++ ascii "\":" ++ kv.2
  else ascii "\"" ++ kv.1 ++ ascii "\":\"" ++ kv.2 ++ ascii "\""

/-- The entries of a list of pairs, in order, separated by commas. -/
def jsonEntries : List (List Byte × List Byte) → List Byte
  | [] => []
  | [kv] => jsonEntry kv
  | kv :: rest => jsonEntry kv ++ ascii "," ++ jsonEntries rest

/-- The JSON object of a list of pairs. -/
def jsonObject (pairs : List (List Byte × List Byte)) : List Byte :=
  ascii "\x7b" ++ jsonEntries pairs ++ ascii "\x7d"

/-- The escaping of the format: a backslash before every backslash, `=` and `;`. -/
def ssvEscape (s : List Byte) : List Byte :=
  s.flatMap (fun c => if c = 92 ∨ c = 61 ∨ c = 59 then [92, c] else [c])

/-- The text of a list of pairs with every key and every value escaped. -/
def ssvEscapedText (pairs : List (List Byte × List Byte)) : List Byte :=
  ssvText (pairs.map (fun kv => (ssvEscape kv.1, ssvEscape kv.2)))

/-! ## Concrete inputs for the client -/

/-- A stand-in AEAD for concrete runs: the ciphertext is the plaintext with each byte
shifted by the first key byte, followed by a 16-byte tag made of the first nonce byte. -/
def toyEncrypt : Encrypter :=
  fun nonce key plaintext =>
    Except.ok (plaintext.map (fun b => b + key.headD 0) ++ List.replicate 16 (nonce.headD 0))

/-- The inverse of `toyEncrypt`; a wrong tag or a short input is an error. -/
def toyDecrypt : Decrypter :=
  fun nonce key ciphertext =>
    if ciphertext.length < 16 then Except.error (GoError.foreign "ciphertext too short")
    else if ciphertext.drop (ciphertext.length - 16) = List.replicate 16 (nonce.headD 0) then
      Except.ok ((ciphertext.take (ciphertext.length - 16)).map (fun b => b - key.headD 0))
    else Except.error (GoError.foreign "cipher: message authentication failed")

/-- Lower-casing of the ASCII letters, which is what `strings.ToLower` does to ASCII text. -/
def asciiToLower (s : List Byte) : List Byte :=
  s.map (fun c => if 65 ≤ c.val ∧ c.val ≤ 90 then c + 32 else c)

/-- Collaborators of `SplitConfigs` for concrete runs: a key parser that takes any 32 bytes,
ASCII lower-casing, `host:port` joining for a host without a colon, and the method
constants 0, 1 and 2. -/
def sampleSplitDeps : SplitDeps :=
  { Unmarshal := fun b => if b.length = 32 then some b else none
    ToLower := asciiToLower
    JoinHostPort := fun host port => host ++ ascii ":" ++ port
    E_METHOD_PLAIN := 0
    E_METHOD_AES_GCM := 1
    E_METHOD_CHACHA20_POLY1305 := 2 }

/-- A complete configuration: every required field is filled in, the encryption method is
`AES-GCM` and the keep-alive is 30. -/
def sampleRaw : rawConfig :=
  { ServerName := ascii "www.bing.com"
    ProxyMethod := ascii "shadowsocks"
    EncryptionMethod := ascii "AES-GCM"
    UID := sampleUID
    PublicKey := List.replicate 32 9
    NumConn := 4
    LocalHost := ascii "127.0.0.1"
    LocalPort := ascii "1984"
    RemoteHost := ascii "1.2.3.4"
    RemotePort := ascii "443"
    UDP := false
    BrowserSig := ascii "chrome"
    Transport := ascii "direct"
    StreamTimeout := 300
    KeepAlive := 30 }

/-- Collaborators of `ParseConfig` for concrete runs: no file can be read and no content
is valid JSON. -/
def sampleParseDeps : ParseDeps :=
  { ReadFile := fun _ => Except.error (GoError.foreign "open: no such file or directory")
    jsonUnmarshal := fun _ => (sampleRaw, some (GoError.foreign "invalid character")) }

/-! ## Theorems -/

set_option maxRecDepth 100000

/-! ### Slices, trimming and big-endian integers -/

theorem slice_mid (a b c : List Byte) (lo hi : Nat) (h1 : a.length = lo)
    (h2 : lo + b.length = hi) : slice (a ++ b ++ c) lo hi = b := by
  subst h1; subst h2
  unfold slice
  rw [List.append_assoc, ← List.length_append, ← List.append_assoc, List.take_left,
    List.drop_left]

theorem dropWhile_replicate_append (p : Byte → Bool) (z : Byte) (hz : p z = true) (k : Nat)
    (l : List Byte) : (List.replicate k z ++ l).dropWhile p = l.dropWhile p := by
  induction k with
  | zero => simp
  | succ k ih => simp [List.replicate_succ, List.dropWhile_cons, hz, ih]

theorem dropWhile_eq_self_of_head (p : Byte → Bool) (l : List Byte)
    (h : ∀ x ∈ l.head?, p x = false) : l.dropWhile p = l := by
  cases l with
  | nil => rfl
  | cons x xs =>
    have hx : p x = false := h x (by simp)
    simp [List.dropWhile_cons, hx]

theorem Trim_padded (name : List Byte) (k : Nat) (hnul : ∀ b ∈ name, b ≠ 0) :
    bytes.Trim (name ++ List.replicate k 0) 0 = name := by
  unfold bytes.Trim trimLeftByte trimRightByte
  rw [List.reverse_append, List.reverse_replicate,
    dropWhile_replicate_append _ 0 (by simp) k]
  have h1 : name.reverse.dropWhile (fun b => b == 0) = name.reverse := by
    apply dropWhile_eq_self_of_head
    intro x hx
    have : x ∈ name.reverse := List.mem_of_mem_head? hx
    simpa using hnul x (List.mem_reverse.mp this)
  have h2 : name.dropWhile (fun b => b == 0) = name := by
    apply dropWhile_eq_self_of_head
    intro x hx
    have : x ∈ name := List.mem_of_mem_head? hx
    simpa using hnul x this
  rw [h1, List.reverse_reverse, h2]

theorem Uint64_PutUint64 (v : Nat) (h : v < 2 ^ 64) :
    BigEndian.Uint64 (BigEndian.PutUint64 v) = v := by
  simp only [BigEndian.Uint64, BigEndian.PutUint64, List.take, List.foldl, Fin.ofNat,
    Fin.val_mk]
  omega

theorem Uint32_PutUint32 (v : Nat) (h : v < 2 ^ 32) :
    BigEndian.Uint32 (BigEndian.PutUint32 v) = v := by
  simp only [BigEndian.Uint32, BigEndian.PutUint32, List.take, List.foldl, Fin.ofNat,
    Fin.val_mk]
  omega

theorem int64_uint64 (t : Int) (h1 : -2 ^ 63 ≤ t) (h2 : t < 2 ^ 63) : int64 (uint64 t) = t := by
  unfold int64 uint64
  split <;> omega

theorem takeWhile_isZero (l : List Byte) :
    l.takeWhile (fun b => b == 0) = List.replicate (l.takeWhile (fun b => b == 0)).length 0 := by
  rw [List.eq_replicate_iff]
  refine ⟨rfl, ?_⟩
  intro b hb
  simpa using List.mem_takeWhile_imp hb

theorem head_dropWhile_isZero (l : List Byte) :
    ∀ x ∈ (l.dropWhile (fun b => b == 0)).head?, x ≠ 0 := by
  intro x hx
  have h := List.head?_dropWhile_not (fun b : Byte => b == 0) l
  rw [Option.mem_def] at hx
  rw [hx] at h
  simpa using h

theorem getLast_dropWhile (p : Byte → Bool) (l : List Byte) :
    ∀ x ∈ (l.dropWhile p).getLast?, x ∈ l.getLast? := by
  induction l with
  | nil => simp
  | cons a as ih =>
    intro x hx
    rw [List.dropWhile_cons] at hx
    split at hx
    · have h1 := ih x hx
      cases as with
      | nil => simp at h1
      | cons b bs => simpa [List.getLast?_cons_cons] using h1
    · exact hx

theorem Trim_spec (s : List Byte) :
    ∃ k m : Nat, s = List.replicate k 0 ++ bytes.Trim s 0 ++ List.replicate m 0 ∧
      (∀ x ∈ (bytes.Trim s 0).head?, x ≠ 0) ∧ (∀ x ∈ (bytes.Trim s 0).getLast?, x ≠ 0) := by
  unfold bytes.Trim trimLeftByte trimRightByte
  generalize hr : (s.reverse.dropWhile (fun b => b == 0)).reverse = r
  have hs : s = r ++ (s.reverse.takeWhile (fun b => b == 0)).reverse := by
    have h := List.takeWhile_append_dropWhile (fun b : Byte => b == 0) s.reverse
    have h2 := congrArg List.reverse h
    rw [List.reverse_append, List.reverse_reverse, hr] at h2
    exact h2.symm
  have hlast : ∀ x ∈ r.getLast?, x ≠ 0 := by
    intro x hx
    rw [← hr, List.getLast?_reverse] at hx
    exact head_dropWhile_isZero s.reverse x hx
  refine ⟨(r.takeWhile (fun b => b == 0)).length,
    (s.reverse.takeWhile (fun b => b == 0)).length, ?_, head_dropWhile_isZero r, ?_⟩
  · rw [← takeWhile_isZero r, List.takeWhile_append_dropWhile]
    have h3 := takeWhile_isZero s.reverse
    rw [← List.reverse_replicate, ← h3]
    exact hs
  · intro x hx
    exact hlast x (getLast_dropWhile _ r x hx)

theorem getD_mid (a c : List Byte) (x : Byte) (n : Nat) (h : a.length = n) :
    (a ++ [x] ++ c).getD n 0 = x := by
  subst h
  rw [List.getD_eq_getElem?_getD, List.append_assoc, List.getElem?_append_right (le_refl _)]
  simp

theorem land_flag (n : Nat) : (Nat.land n UNORDERED_FLAG != 0) = n.testBit 0 := by
  have h : Nat.land n 1 = n % 2 := Nat.and_one_is_mod n
  unfold UNORDERED_FLAG
  rw [h, Nat.testBit_zero]
  rcases Nat.mod_two_eq_zero_or_one n with h0 | h1
  · simp [h0]
  · simp [h1]

/-! ### `decryptClientInfo` -/

theorem Truncate_bounds (now : Time) (tol : Duration) (h : 0 < tol) :
    (now.Truncate tol).unixNano ≤ now.unixNano ∧
      now.unixNano < (now.Truncate tol).unixNano + tol ∧
      tol ∣ (now.Truncate tol).unixNano + unixToInternal * 1000000000 := by
  have hn : ¬ tol ≤ 0 := not_le.mpr h
  have h1 := Int.emod_nonneg (now.unixNano + unixToInternal * 1000000000) (ne_of_gt h)
  have h2 := Int.emod_lt_of_pos (now.unixNano + unixToInternal * 1000000000) h
  simp only [Time.Truncate, hn, if_false, Time.Add]
  refine ⟨by omega, by omega, ?_⟩
  have h3 : now.unixNano + -((now.unixNano + unixToInternal * 1000000000) % tol)
      + unixToInternal * 1000000000
      = (now.unixNano + unixToInternal * 1000000000)
        - (now.unixNano + unixToInternal * 1000000000) % tol := by ring
  rw [h3]
  exact Int.dvd_sub_of_emod_eq rfl

theorem decryptClientInfo_of_plaintext (dec : Decrypter) (tol : Duration) (fr : authFragments)
    (now : Time) (p : List Byte) (hlen : 42 ≤ p.length)
    (hdec : dec (slice fr.randPubKey 0 12) fr.sharedSecret fr.ciphertextWithTag = .ok p) :
    decryptClientInfo dec tol fr now =
      if (now.Truncate tol).unixNano < int64 (BigEndian.Uint64 (slice p 29 37)) * 1000000000 ∧
          int64 (BigEndian.Uint64 (slice p 29 37)) * 1000000000 < now.unixNano + tol then
        some ({ UID := slice p 0 16
                SessionId := BigEndian.Uint32 (slice p 37 41)
                ProxyMethod := bytes.Trim (slice p 16 28) 0
                EncryptionMethod := p.getD 28 0
                Unordered := Nat.land (p.getD 41 0).val UNORDERED_FLAG != 0
                Transport := none }, none)
      else
        some ({ UID := slice p 0 16
                SessionId := 0
                ProxyMethod := bytes.Trim (slice p 16 28) 0
                EncryptionMethod := p.getD 28 0
                Unordered := Nat.land (p.getD 41 0).val UNORDERED_FLAG != 0
                Transport := none },
              some (GoError.Errorf "%v: received timestamp %v"
                [FmtArg.error GoError.ErrTimestampOutOfWindow,
                 FmtArg.int (int64 (BigEndian.Uint64 (slice p 29 37)))])) := by
  have hl : ¬ p.length < 42 := not_lt.mpr hlen
  unfold decryptClientInfo
  rw [hdec]
  simp only [hl, if_false, Time.After, Time.Before, Time.Unix, Time.Add, add_zero]
  by_cases h1 : (now.Truncate tol).unixNano
      < int64 (BigEndian.Uint64 (slice p 29 37)) * 1000000000
  · by_cases h2 : int64 (BigEndian.Uint64 (slice p 29 37)) * 1000000000 < now.unixNano + tol
    · simp [h1, h2]
    · simp [h1, h2]
  · simp [h1]

theorem decryptClientInfo_decodes_sample :
    decryptClientInfo (decryptsTo (samplePlaintext sampleName 1000000000 2)) sampleTolerance
        sampleFragments sampleNow
      = some ({ UID := sampleUID, SessionId := 0x01020304, ProxyMethod := sampleName,
                EncryptionMethod := 1, Unordered := false, Transport := none }, none) := by
  rfl

theorem decryptClientInfo_Transport (dec : Decrypter) (tol : Duration) (fr : authFragments)
    (now : Time) (info : ClientInfo) (e : Option GoError)
    (h : decryptClientInfo dec tol fr now = some (info, e)) : info.Transport = none := by
  unfold decryptClientInfo at h
  split at h
  · simp only [Option.some.injEq, Prod.mk.injEq] at h
    rw [← h.1]; rfl
  · split at h
    · simp at h
    · dsimp only at h
      split at h
      · simp only [Option.some.injEq, Prod.mk.injEq] at h
        rw [← h.1]
      · simp only [Option.some.injEq, Prod.mk.injEq] at h
        rw [← h.1]

theorem decryptClientInfo_error (dec : Decrypter) (tol : Duration) (fr : authFragments)
    (now : Time) (e : GoError)
    (h : dec (slice fr.randPubKey 0 12) fr.sharedSecret fr.ciphertextWithTag = .error e) :
    decryptClientInfo dec tol fr now = some (ClientInfo.zero, some e) := by
  unfold decryptClientInfo
  rw [h]

theorem decryptClientInfo_ok_ProxyMethod (dec : Decrypter) (tol : Duration)
    (fr : authFragments) (now : Time) (info : ClientInfo)
    (h : decryptClientInfo dec tol fr now = some (info, none)) :
    ∃ p, dec (slice fr.randPubKey 0 12) fr.sharedSecret fr.ciphertextWithTag = .ok p ∧
      info.ProxyMethod = bytes.Trim (slice p 16 28) 0 := by
  unfold decryptClientInfo at h
  split at h
  · simp at h
  · rename_i p hp
    refine ⟨p, hp, ?_⟩
    split at h
    · simp at h
    · dsimp only at h
      split at h
      · simp at h
      · simp only [Option.some.injEq, Prod.mk.injEq] at h
        rw [← h.1]

/-! ### `AuthFirstPacket`, case by case -/

theorem AuthFirstPacket_unrecognised {ρ : Type} (deps : Deps ρ) (b : Byte) (rest : List Byte)
    (sta : State) (hdet : detectTransport b = none) :
    AuthFirstPacket deps (b :: rest) sta = Outcome.returned
      { info := ClientInfo.zero, finisher := none,
        err := some GoError.ErrUnreconisedProtocol, sta := sta, calls := [] } := by
  simp [AuthFirstPacket, hdet]

theorem AuthFirstPacket_extract_error {ρ : Type} (deps : Deps ρ) (b : Byte) (rest : List Byte)
    (sta : State) (transport : Transport) (fragments : authFragments) (finisher : Option ρ)
    (e : GoError) (hdet : detectTransport b = some transport)
    (hext : deps.processFirstPacket transport (b :: rest) sta.staticPv
      = (fragments, finisher, some e)) :
    AuthFirstPacket deps (b :: rest) sta = Outcome.returned
      { info := ClientInfo.zero, finisher := finisher, err := some e, sta := sta,
        calls := [Call.processFirstPacket transport] } := by
  simp [AuthFirstPacket, hdet, hext]

theorem AuthFirstPacket_replayed {ρ : Type} (deps : Deps ρ) (b : Byte) (rest : List Byte)
    (sta : State) (transport : Transport) (fragments : authFragments) (finisher : Option ρ)
    (hdet : detectTransport b = some transport)
    (hext : deps.processFirstPacket transport (b :: rest) sta.staticPv
      = (fragments, finisher, none))
    (hused : fragments.randPubKey ∈ sta.usedRandom) :
    AuthFirstPacket deps (b :: rest) sta = Outcome.returned
      { info := ClientInfo.zero, finisher := finisher, err := some GoError.ErrReplay,
        sta := { sta with usedRandom := fragments.randPubKey :: sta.usedRandom },
        calls := [Call.processFirstPacket transport,
                  Call.registerRandom fragments.randPubKey] } := by
  simp [AuthFirstPacket, hdet, hext, registerRandom, hused]

theorem AuthFirstPacket_fresh {ρ : Type} (deps : Deps ρ) (b : Byte) (rest : List Byte)
    (sta : State) (transport : Transport) (fragments : authFragments) (finisher : Option ρ)
    (hdet : detectTransport b = some transport)
    (hext : deps.processFirstPacket transport (b :: rest) sta.staticPv
      = (fragments, finisher, none))
    (hfresh : fragments.randPubKey ∉ sta.usedRandom) :
    AuthFirstPacket deps (b :: rest) sta =
      match decryptClientInfo deps.AESGCMDecrypt deps.TIMESTAMP_TOLERANCE fragments sta.Now with
      | none =>
        Outcome.panicked { sta with usedRandom := fragments.randPubKey :: sta.usedRandom }
          [Call.processFirstPacket transport, Call.registerRandom fragments.randPubKey,
           Call.decryptClientInfo fragments]
      | some (info, some e) =>
        Outcome.returned
          { info := info, finisher := finisher,
            err := some (GoError.Errorf "transport %v in correct format but not Cloak: %v"
              [FmtArg.transport transport, FmtArg.error e]),
            sta := { sta with usedRandom := fragments.randPubKey :: sta.usedRandom },
            calls := [Call.processFirstPacket transport,
                      Call.registerRandom fragments.randPubKey,
                      Call.decryptClientInfo fragments] }
      | some (info, none) =>
        if info.ProxyMethod ∈ sta.ProxyBook then
          Outcome.returned
            { info := { info with Transport := some transport }, finisher := finisher,
              err := none,
              sta := { sta with usedRandom := fragments.randPubKey :: sta.usedRandom },
              calls := [Call.processFirstPacket transport,
                        Call.registerRandom fragments.randPubKey,
                        Call.decryptClientInfo fragments] }
        else
          Outcome.returned
            { info := info, finisher := finisher, err := some GoError.ErrBadProxyMethod,
              sta := { sta with usedRandom := fragments.randPubKey :: sta.usedRandom },
              calls := [Call.processFirstPacket transport,
                        Call.registerRandom fragments.randPubKey,
                        Call.decryptClientInfo fragments] } := by
  simp only [AuthFirstPacket, hdet, hext, registerRandom, hfresh, decide_False, Bool.false_eq_true,
    if_false]

theorem AuthFirstPacket_sta {ρ : Type} (deps : Deps ρ) (pkt : List Byte) (sta : State) :
    (AuthFirstPacket deps pkt sta).sta = sta ∨
      ∃ k, extractedKey deps pkt sta.staticPv = some k ∧
        (AuthFirstPacket deps pkt sta).sta = { sta with usedRandom := k :: sta.usedRandom } ∧
        Call.registerRandom k ∈ (AuthFirstPacket deps pkt sta).calls := by
  unfold AuthFirstPacket extractedKey
  cases pkt with
  | nil => left; rfl
  | cons b rest =>
    simp only
    cases hdet : detectTransport b with
    | none => left; rfl
    | some transport =>
      simp only
      rcases hext : deps.processFirstPacket transport (b :: rest) sta.staticPv with
        ⟨fragments, finisher, err⟩
      cases err with
      | some e => left; rfl
      | none =>
        right
        refine ⟨fragments.randPubKey, rfl, ?_⟩
        simp only
        split
        · exact ⟨rfl, by simp [Outcome.calls]⟩
        · split
          · exact ⟨rfl, by simp [Outcome.calls]⟩
          · exact ⟨rfl, by simp [Outcome.calls]⟩
          · split
            · exact ⟨rfl, by simp [Outcome.calls]⟩
            · exact ⟨rfl, by simp [Outcome.calls]⟩

theorem AuthFirstPacket_accepted_key {ρ : Type} (deps : Deps ρ) (pkt : List Byte) (sta : State)
    (r : AuthResult ρ) (hrun : AuthFirstPacket deps pkt sta = Outcome.returned r)
    (hacc : r.err = none) :
    ∃ k, extractedKey deps pkt sta.staticPv = some k ∧ k ∉ sta.usedRandom ∧
      r.sta = { sta with usedRandom := k :: sta.usedRandom } := by
  unfold AuthFirstPacket at hrun
  unfold extractedKey
  cases pkt with
  | nil => simp at hrun
  | cons b rest =>
    simp only at hrun ⊢
    cases hdet : detectTransport b with
    | none =>
      rw [hdet] at hrun
      simp only [Outcome.returned.injEq] at hrun
      rw [← hrun] at hacc
      simp at hacc
    | some transport =>
      rw [hdet] at hrun
      simp only at hrun ⊢
      rcases hext : deps.processFirstPacket transport (b :: rest) sta.staticPv with
        ⟨fragments, finisher, err⟩
      rw [hext] at hrun
      cases err with
      | some e =>
        simp only [Outcome.returned.injEq] at hrun
        rw [← hrun] at hacc
        simp at hacc
      | none =>
        simp only at hrun ⊢
        refine ⟨fragments.randPubKey, rfl, ?_⟩
        split at hrun
        · simp only [Outcome.returned.injEq] at hrun
          rw [← hrun] at hacc
          simp at hacc
        · rename_i hreg
          have hk : fragments.randPubKey ∉ sta.usedRandom := by
            simpa [registerRandom] using hreg
          refine ⟨hk, ?_⟩
          split at hrun
          · simp at hrun
          · simp only [Outcome.returned.injEq] at hrun
            rw [← hrun] at hacc
            simp at hacc
          · split at hrun
            · simp only [Outcome.returned.injEq] at hrun
              rw [← hrun]
              rfl
            · simp only [Outcome.returned.injEq] at hrun
              rw [← hrun] at hacc
              simp at hacc

theorem AuthFirstPacket_replay_of_key {ρ : Type} (deps : Deps ρ) (pkt : List Byte)
    (sta : State) (k : List Byte) (hkey : extractedKey deps pkt sta.staticPv = some k)
    (hused : k ∈ sta.usedRandom) :
    ∃ r, AuthFirstPacket deps pkt sta = Outcome.returned r ∧ r.err = some GoError.ErrReplay ∧
      r.sta = { sta with usedRandom := k :: sta.usedRandom } := by
  unfold extractedKey at hkey
  cases pkt with
  | nil => simp at hkey
  | cons b rest =>
    simp only at hkey
    cases hdet : detectTransport b with
    | none => rw [hdet] at hkey; simp at hkey
    | some transport =>
      rw [hdet] at hkey
      simp only at hkey
      rcases hext : deps.processFirstPacket transport (b :: rest) sta.staticPv with
        ⟨fragments, finisher, err⟩
      rw [hext] at hkey
      cases err with
      | some e => simp at hkey
      | none =>
        simp only [Option.some.injEq] at hkey
        subst hkey
        exact ⟨_, AuthFirstPacket_replayed deps b rest sta transport fragments finisher hdet
          hext hused, rfl, rfl⟩

theorem runAuth_replay {ρ : Type} (deps : Deps ρ) (steps : List (List Byte × Time)) :
    ∀ (sta : State) (k : List Byte), k ∈ sta.usedRandom →
      ∀ (j : Nat) (o : Outcome ρ) (pj : List Byte × Time),
        (runAuth deps sta steps)[j]? = some o → steps[j]? = some pj →
        extractedKey deps pj.1 sta.staticPv = some k →
        ∃ rj, o = Outcome.returned rj ∧ rj.err = some GoError.ErrReplay := by
  induction steps with
  | nil => intro sta k _ j o pj h; simp [runAuth] at h
  | cons step rest ih =>
    intro sta k hk j o pj hrun hstep hkey
    obtain ⟨pkt, t⟩ := step
    have hsta := AuthFirstPacket_sta deps pkt { sta with Now := t }
    cases j with
    | zero =>
      simp only [List.getElem?_cons_zero, Option.some.injEq] at hstep
      subst hstep
      obtain ⟨r, hr, herr, _⟩ :=
        AuthFirstPacket_replay_of_key deps pkt { sta with Now := t } k hkey hk
      simp only [runAuth, hr, List.getElem?_cons_zero, Option.some.injEq] at hrun
      exact ⟨r, hrun.symm, herr⟩
    | succ j =>
      simp only [List.getElem?_cons_succ] at hstep
      cases hout : AuthFirstPacket deps pkt { sta with Now := t } with
      | panicked s c => simp [runAuth, hout] at hrun
      | returned r =>
        simp only [runAuth, hout, List.getElem?_cons_succ] at hrun
        rw [hout] at hsta
        have hpv : r.sta.staticPv = sta.staticPv := by
          rcases hsta with h | ⟨k2, _, h, _⟩
          · simp only [Outcome.sta] at h; rw [h]
          · simp only [Outcome.sta] at h; rw [h]
        have hk2 : k ∈ r.sta.usedRandom := by
          rcases hsta with h | ⟨k2, _, h, _⟩
          · simp only [Outcome.sta] at h; rw [h]; exact hk
          · simp only [Outcome.sta] at h; rw [h]; exact List.mem_cons_of_mem _ hk
        exact ih r.sta k hk2 j o pj hrun hstep (by rw [hpv]; exact hkey)

theorem AuthFirstPacket_returned_cases {ρ : Type} (deps : Deps ρ) (pkt : List Byte)
    (sta : State) (r : AuthResult ρ) (hrun : AuthFirstPacket deps pkt sta = Outcome.returned r) :
    ∃ b rest, pkt = b :: rest ∧
      ((detectTransport b = none ∧ r.info = ClientInfo.zero ∧ r.finisher = none ∧
          r.err = some GoError.ErrUnreconisedProtocol) ∨
        ∃ transport, detectTransport b = some transport ∧
          r.finisher = (deps.processFirstPacket transport pkt sta.staticPv).2.1 ∧
          ((∃ e, (deps.processFirstPacket transport pkt sta.staticPv).2.2 = some e ∧
              r.info = ClientInfo.zero ∧ r.err = some e) ∨
            ((deps.processFirstPacket transport pkt sta.staticPv).2.2 = none ∧
              (deps.processFirstPacket transport pkt sta.staticPv).1.randPubKey
                ∈ sta.usedRandom ∧
              r.info = ClientInfo.zero ∧ r.err = some GoError.ErrReplay) ∨
            ((deps.processFirstPacket transport pkt sta.staticPv).2.2 = none ∧
              (deps.processFirstPacket transport pkt sta.staticPv).1.randPubKey
                ∉ sta.usedRandom ∧
              ((∃ e, decryptClientInfo deps.AESGCMDecrypt deps.TIMESTAMP_TOLERANCE
                    (deps.processFirstPacket transport pkt sta.staticPv).1 sta.Now
                    = some (r.info, some e) ∧
                  r.err = some (GoError.Errorf
                    "transport %v in correct format but not Cloak: %v"
                    [FmtArg.transport transport, FmtArg.error e])) ∨
                (decryptClientInfo deps.AESGCMDecrypt deps.TIMESTAMP_TOLERANCE
                    (deps.processFirstPacket transport pkt sta.staticPv).1 sta.Now
                    = some (r.info, none) ∧
                  r.info.ProxyMethod ∉ sta.ProxyBook ∧
                  r.err = some GoError.ErrBadProxyMethod) ∨
                (∃ info, decryptClientInfo deps.AESGCMDecrypt deps.TIMESTAMP_TOLERANCE
                    (deps.processFirstPacket transport pkt sta.staticPv).1 sta.Now
                    = some (info, none) ∧
                  info.ProxyMethod ∈ sta.ProxyBook ∧
                  r.info = { info with Transport := some transport } ∧ r.err = none))))) := by
  cases pkt with
  | nil => simp [AuthFirstPacket] at hrun
  | cons b rest =>
    refine ⟨b, rest, rfl, ?_⟩
    cases hdet : detectTransport b with
    | none =>
      left
      rw [AuthFirstPacket_unrecognised deps b rest sta hdet] at hrun
      simp only [Outcome.returned.injEq] at hrun
      subst hrun
      exact ⟨rfl, rfl, rfl, rfl⟩
    | some transport =>
      right
      refine ⟨transport, rfl, ?_⟩
      rcases hext : deps.processFirstPacket transport (b :: rest) sta.staticPv with
        ⟨fragments, finisher, eo⟩
      cases eo with
      | some e =>
        rw [AuthFirstPacket_extract_error deps b rest sta transport fragments finisher e hdet
          hext] at hrun
        simp only [Outcome.returned.injEq] at hrun
        subst hrun
        exact ⟨rfl, Or.inl ⟨e, rfl, rfl, rfl⟩⟩
      | none =>
        by_cases hused : fragments.randPubKey ∈ sta.usedRandom
        · rw [AuthFirstPacket_replayed deps b rest sta transport fragments finisher hdet hext
            hused] at hrun
          simp only [Outcome.returned.injEq] at hrun
          subst hrun
          exact ⟨rfl, Or.inr (Or.inl ⟨rfl, hused, rfl, rfl⟩)⟩
        · rw [AuthFirstPacket_fresh deps b rest sta transport fragments finisher hdet hext
            hused] at hrun
          cases hd : decryptClientInfo deps.AESGCMDecrypt deps.TIMESTAMP_TOLERANCE fragments
              sta.Now with
          | none => rw [hd] at hrun; simp at hrun
          | some res =>
            obtain ⟨info, eo⟩ := res
            rw [hd] at hrun
            cases eo with
            | some e =>
              simp only [Outcome.returned.injEq] at hrun
              subst hrun
              exact ⟨rfl, Or.inr (Or.inr ⟨rfl, hused, Or.inl ⟨e, rfl, rfl⟩⟩)⟩
            | none =>
              simp only at hrun
              by_cases hbook : info.ProxyMethod ∈ sta.ProxyBook
              · rw [if_pos hbook] at hrun
                simp only [Outcome.returned.injEq] at hrun
                subst hrun
                exact ⟨rfl, Or.inr (Or.inr ⟨rfl, hused, Or.inr (Or.inr
                  ⟨info, rfl, hbook, rfl, rfl⟩)⟩)⟩
              · rw [if_neg hbook] at hrun
                simp only [Outcome.returned.injEq] at hrun
                subst hrun
                exact ⟨rfl, Or.inr (Or.inr ⟨rfl, hused, Or.inr (Or.inl ⟨rfl, hbook, rfl⟩)⟩)⟩

/-! ### `WebSocket.handshake` -/

theorem handshake_decode_error_unread (deps : WSDeps) (reqPacket privateKey : List Byte)
    (req : Request) (hidden ephPub : List Byte) (e : GoError)
    (hreq : deps.ReadRequest reqPacket = .ok req)
    (hdec : deps.DecodeString (req.HeaderGet "hidden") = (hidden, some e))
    (hlen : hidden.length = 96) (hkey : deps.Unmarshal (slice hidden 0 32) = some ephPub) :
    WebSocket.handshake deps reqPacket privateKey
      = ({ sharedSecret := deps.GenerateSharedSecret privateKey ephPub
           nonce := slice hidden 0 12
           ciphertextWithTag := slice hidden 32 96 },
         some { reqPacket := reqPacket,
                sharedSecret := deps.GenerateSharedSecret privateKey ephPub },
         none) := by
  have h64 : (slice hidden 32 96).length = 64 := by
    simp [slice, hlen]
  simp [WebSocket.handshake, hreq, hdec, unmarshalHidden, hlen, hkey, h64]

/-! ## The claims -/

/-- Claim C1, amended. For every 16-byte UID, every NUL-free proxy-method name of at most 12
bytes, every encryption-method byte, every timestamp `t` with
`Truncate(now, tolerance) < t < now + tolerance` (the window the code tests, which is
narrower than `now - tolerance .. now + tolerance`), every 32-bit session id and every
unordered flag: when the AEAD step yields the plaintext
`UID ‖ name padded with NUL to 12 ‖ method ‖ timestamp (8 bytes, big-endian) ‖
session id (4 bytes, big-endian) ‖ flag byte` followed by any further bytes, where bit 0
of the flag byte is the unordered flag and its other bits are arbitrary,
`decryptClientInfo` returns a `nil` error and a `ClientInfo` holding exactly those inputs. -/
theorem decryptClientInfo_decodes_plaintext (dec : Decrypter) (tol : Duration)
    (fr : authFragments) (now : Time) (uid name : List Byte) (method : Byte) (timestamp : Int)
    (sessionId : Nat) (unordered : Bool) (flags : Byte) (tail : List Byte)
    (huid : uid.length = 16) (hname : name.length ≤ 12) (hnul : ∀ b ∈ name, b ≠ 0)
    (hts : -2 ^ 63 ≤ timestamp ∧ timestamp < 2 ^ 63)
    (hwin : (now.Truncate tol).unixNano < timestamp * 1000000000 ∧
      timestamp * 1000000000 < now.unixNano + tol)
    (hsid : sessionId < 2 ^ 32) (hflag : flags.val.testBit 0 = unordered)
    (hdec : dec (slice fr.randPubKey 0 12) fr.sharedSecret fr.ciphertextWithTag
      = .ok (specPlaintext uid name method timestamp sessionId flags ++ tail)) :
    decryptClientInfo dec tol fr now
      = some ({ UID := uid, SessionId := sessionId, ProxyMethod := name,
                EncryptionMethod := method, Unordered := unordered, Transport := none },
              none) := by
  have hpad : (name ++ List.replicate (12 - name.length) (0 : Byte)).length = 12 := by
    simp; omega
  generalize hq : name ++ List.replicate (12 - name.length) (0 : Byte) = pad at hpad
  have hp : specPlaintext uid name method timestamp sessionId flags ++ tail
      = uid ++ pad ++ [method] ++ BigEndian.PutUint64 (uint64 timestamp)
        ++ BigEndian.PutUint32 sessionId ++ [flags] ++ tail := by
    simp [specPlaintext, hq]
  generalize hts8 : BigEndian.PutUint64 (uint64 timestamp) = ts8 at hp
  generalize hsid4 : BigEndian.PutUint32 sessionId = sid4 at hp
  have hl8 : ts8.length = 8 := by rw [← hts8]; rfl
  have hl4 : sid4.length = 4 := by rw [← hsid4]; rfl
  rw [hp] at hdec
  generalize hpl : uid ++ pad ++ [method] ++ ts8 ++ sid4 ++ [flags] ++ tail = p at hdec
  have hlen : ¬ p.length < 42 := by
    rw [← hpl]; simp [huid, hpad, hl8, hl4]; omega
  have hU : slice p 0 16 = uid := by
    rw [← hpl]
    have := slice_mid [] uid (pad ++ [method] ++ ts8 ++ sid4 ++ [flags] ++ tail) 0 16 rfl
      (by simp [huid])
    simpa [List.append_assoc] using this
  have hP : slice p 16 28 = pad := by
    rw [← hpl]
    have := slice_mid uid pad ([method] ++ ts8 ++ sid4 ++ [flags] ++ tail) 16 28 huid
      (by simp [hpad])
    simpa [List.append_assoc] using this
  have hM : p.getD 28 0 = method := by
    rw [← hpl]
    have := getD_mid (uid ++ pad) (ts8 ++ sid4 ++ [flags] ++ tail) method 28
      (by simp [huid, hpad])
    simpa [List.append_assoc] using this
  have hT : slice p 29 37 = ts8 := by
    rw [← hpl]
    have := slice_mid (uid ++ pad ++ [method]) ts8 (sid4 ++ [flags] ++ tail) 29 37
      (by simp [huid, hpad]) (by simp [hl8])
    simpa [List.append_assoc] using this
  have hS : slice p 37 41 = sid4 := by
    rw [← hpl]
    have := slice_mid (uid ++ pad ++ [method] ++ ts8) sid4 ([flags] ++ tail) 37 41
      (by simp [huid, hpad, hl8]) (by simp [hl4])
    simpa [List.append_assoc] using this
  have hF : p.getD 41 0 = flags := by
    rw [← hpl]
    have := getD_mid (uid ++ pad ++ [method] ++ ts8 ++ sid4) tail flags 41
      (by simp [huid, hpad, hl8, hl4])
    simpa [List.append_assoc] using this
  have hname2 : bytes.Trim pad 0 = name := by
    rw [← hq]; exact Trim_padded name _ hnul
  have htime : int64 (BigEndian.Uint64 ts8) = timestamp := by
    rw [← hts8, Uint64_PutUint64, int64_uint64 _ hts.1 hts.2]
    unfold uint64
    omega
  have hsess : BigEndian.Uint32 sid4 = sessionId := by
    rw [← hsid4, Uint32_PutUint32 _ hsid]
  have hA : (Time.Unix timestamp 0).After (now.Truncate tol) = true := by
    simp [Time.After, Time.Unix, hwin.1]
  have hB : (Time.Unix timestamp 0).Before (now.Add tol) = true := by
    simp [Time.Before, Time.Unix, Time.Add, hwin.2]
  unfold decryptClientInfo
  rw [hdec]
  simp only [hlen, if_false, hU, hP, hM, hT, hS, hF, hname2, htime, hsess, hA, hB, land_flag,
    hflag]
  simp

/-- The hypotheses of the amended C1 hold for the UID `00112233445566778899aabbccddeeff`,
the method `shadowsocks`, flag byte `0x02` and six trailing bytes, with the timestamp equal
to the server's second. -/
theorem decryptClientInfo_decodes_plaintext_witness :
    decryptClientInfo (decryptsTo (samplePlaintext sampleName 1000000000 2)) sampleTolerance
        sampleFragments sampleNow
      = some ({ UID := sampleUID, SessionId := 0x01020304, ProxyMethod := sampleName,
                EncryptionMethod := 1, Unordered := false, Transport := none }, none) :=
  decryptClientInfo_decodes_plaintext (decryptsTo (samplePlaintext sampleName 1000000000 2))
    sampleTolerance sampleFragments sampleNow sampleUID sampleName 1 1000000000 0x01020304
    false 2 [9, 9, 9, 9, 9, 9] (by decide) (by decide) (by decide) (by decide) (by decide)
    (by decide) (by decide) rfl

/-- Counterexample to C1 as stated. With a tolerance of 180 s, a well-formed plaintext is
rejected although its timestamp is within the tolerance of the server clock. With the clock
at Unix second 1000000000 and the timestamp 999999850, 150 s behind: the clock rounded down
to a multiple of 180 s is 999999900, which the timestamp does not exceed. With the clock
half a second past Unix second 999999900, itself a multiple of 180 s, and the timestamp
999999900 of that very second: the rounded clock equals the timestamp. In both cases
`decryptClientInfo` returns an error and a `ClientInfo` whose `SessionId` is 0, not the
`0x01020304` of the plaintext. -/
theorem timestamp_within_tolerance_rejected :
    (sampleNow.unixNano - sampleTolerance < 999999850 * 1000000000 ∧
      999999850 * 1000000000 < sampleNow.unixNano + sampleTolerance) ∧
    decryptClientInfo (decryptsTo (samplePlaintext sampleName 999999850 2)) sampleTolerance
        sampleFragments sampleNow
      = some ({ UID := sampleUID, SessionId := 0, ProxyMethod := sampleName,
                EncryptionMethod := 1, Unordered := false, Transport := none },
              some (GoError.Errorf "%v: received timestamp %v"
                [FmtArg.error GoError.ErrTimestampOutOfWindow, FmtArg.int 999999850])) ∧
    ((⟨999999900 * 1000000000 + 500000000⟩ : Time).unixNano - sampleTolerance
        < 999999900 * 1000000000 ∧
      999999900 * 1000000000
        < (⟨999999900 * 1000000000 + 500000000⟩ : Time).unixNano + sampleTolerance) ∧
    decryptClientInfo (decryptsTo (samplePlaintext sampleName 999999900 2)) sampleTolerance
        sampleFragments ⟨999999900 * 1000000000 + 500000000⟩
      = some ({ UID := sampleUID, SessionId := 0, ProxyMethod := sampleName,
                EncryptionMethod := 1, Unordered := false, Transport := none },
              some (GoError.Errorf "%v: received timestamp %v"
                [FmtArg.error GoError.ErrTimestampOutOfWindow, FmtArg.int 999999900])) :=
  ⟨by decide, by rfl, by decide, by rfl⟩

/-- Counterexample to C2 as stated. With a tolerance of 180 s and the server clock at Unix
second 1000000000, the timestamps 1000000180 (`now + tolerance`) and 999999820
(`now - tolerance`) both lie in the closed interval of the claim, and `decryptClientInfo`
rejects both; the error is the value built by `fmt.Errorf`, not `ErrTimestampOutOfWindow`. -/
theorem timestamp_window_edges_rejected :
    (sampleNow.unixNano - sampleTolerance ≤ 1000000180 * 1000000000 ∧
      1000000180 * 1000000000 ≤ sampleNow.unixNano + sampleTolerance) ∧
    decryptClientInfo (decryptsTo (samplePlaintext sampleName 1000000180 0)) sampleTolerance
        sampleFragments sampleNow
      = some ({ UID := sampleUID, SessionId := 0, ProxyMethod := sampleName,
                EncryptionMethod := 1, Unordered := false, Transport := none },
              some (GoError.Errorf "%v: received timestamp %v"
                [FmtArg.error GoError.ErrTimestampOutOfWindow, FmtArg.int 1000000180])) ∧
    (sampleNow.unixNano - sampleTolerance ≤ 999999820 * 1000000000 ∧
      999999820 * 1000000000 ≤ sampleNow.unixNano + sampleTolerance) ∧
    decryptClientInfo (decryptsTo (samplePlaintext sampleName 999999820 0)) sampleTolerance
        sampleFragments sampleNow
      = some ({ UID := sampleUID, SessionId := 0, ProxyMethod := sampleName,
                EncryptionMethod := 1, Unordered := false, Transport := none },
              some (GoError.Errorf "%v: received timestamp %v"
                [FmtArg.error GoError.ErrTimestampOutOfWindow, FmtArg.int 999999820])) :=
  ⟨by decide, by rfl, by decide, by rfl⟩

/-- Claim C2, amended. For every server time `now` and every timestamp `t` carried in a
successfully decrypted plaintext: if `Truncate(now, tolerance) < t < now + tolerance`,
`decryptClientInfo` returns a `nil` error; otherwise it returns the error
`fmt.Errorf("%v: received timestamp %v", ErrTimestampOutOfWindow, t)`; for a positive
tolerance this rejects both `t = now - tolerance` and `t = now + tolerance`. -/
theorem decryptClientInfo_timestamp_verdict (dec : Decrypter) (tol : Duration)
    (fr : authFragments) (now : Time) (p : List Byte) (hlen : 42 ≤ p.length)
    (hdec : dec (slice fr.randPubKey 0 12) fr.sharedSecret fr.ciphertextWithTag = .ok p) :
    (((now.Truncate tol).unixNano < int64 (BigEndian.Uint64 (slice p 29 37)) * 1000000000 ∧
        int64 (BigEndian.Uint64 (slice p 29 37)) * 1000000000 < now.unixNano + tol) →
      ∃ info, decryptClientInfo dec tol fr now = some (info, none)) ∧
    (¬ ((now.Truncate tol).unixNano < int64 (BigEndian.Uint64 (slice p 29 37)) * 1000000000 ∧
        int64 (BigEndian.Uint64 (slice p 29 37)) * 1000000000 < now.unixNano + tol) →
      ∃ info, decryptClientInfo dec tol fr now
        = some (info, some (GoError.Errorf "%v: received timestamp %v"
            [FmtArg.error GoError.ErrTimestampOutOfWindow,
             FmtArg.int (int64 (BigEndian.Uint64 (slice p 29 37)))]))) ∧
    (0 < tol →
      (int64 (BigEndian.Uint64 (slice p 29 37)) * 1000000000 = now.unixNano - tol ∨
        int64 (BigEndian.Uint64 (slice p 29 37)) * 1000000000 = now.unixNano + tol) →
      ∃ info e, decryptClientInfo dec tol fr now = some (info, some e)) := by
  have hmain := decryptClientInfo_of_plaintext dec tol fr now p hlen hdec
  refine ⟨?_, ?_, ?_⟩
  · intro hw
    rw [hmain, if_pos hw]
    exact ⟨_, rfl⟩
  · intro hw
    rw [hmain, if_neg hw]
    exact ⟨_, rfl⟩
  · intro htol hedge
    have hb := Truncate_bounds now tol htol
    have hw : ¬ ((now.Truncate tol).unixNano
          < int64 (BigEndian.Uint64 (slice p 29 37)) * 1000000000 ∧
        int64 (BigEndian.Uint64 (slice p 29 37)) * 1000000000 < now.unixNano + tol) := by
      rcases hedge with h | h <;> omega
    rw [hmain, if_neg hw]
    exact ⟨_, _, rfl⟩

/-- The hypotheses of the amended C2 hold for the sample plaintext, which is accepted. -/
theorem decryptClientInfo_timestamp_verdict_witness :
    ∃ info, decryptClientInfo (decryptsTo (samplePlaintext sampleName 1000000000 2))
      sampleTolerance sampleFragments sampleNow = some (info, none) :=
  (decryptClientInfo_timestamp_verdict (decryptsTo (samplePlaintext sampleName 1000000000 2))
    sampleTolerance sampleFragments sampleNow (samplePlaintext sampleName 1000000000 2)
    (by decide) rfl).1 (by decide)

/-- Claim C3. For every server time `now`, every positive tolerance and every decrypted
timestamp `t` (the eight big-endian bytes read as a signed 64-bit count of seconds),
`decryptClientInfo` accepts exactly when `Truncate(now, tolerance) < t < now + tolerance`,
where `Truncate(now, tolerance)` is the multiple of the tolerance (counted from Go's zero
time) with `Truncate ≤ now < Truncate + tolerance`; so every accepted timestamp satisfies
`now - tolerance < t < now + tolerance`, both inequalities strict. -/
theorem decryptClientInfo_accepts_iff (dec : Decrypter) (tol : Duration)
    (fr : authFragments) (now : Time) (p : List Byte) (htol : 0 < tol) (hlen : 42 ≤ p.length)
    (hdec : dec (slice fr.randPubKey 0 12) fr.sharedSecret fr.ciphertextWithTag = .ok p) :
    ((∃ info, decryptClientInfo dec tol fr now = some (info, none)) ↔
      ((now.Truncate tol).unixNano < int64 (BigEndian.Uint64 (slice p 29 37)) * 1000000000 ∧
        int64 (BigEndian.Uint64 (slice p 29 37)) * 1000000000 < now.unixNano + tol)) ∧
    ((now.Truncate tol).unixNano ≤ now.unixNano ∧
      now.unixNano < (now.Truncate tol).unixNano + tol ∧
      tol ∣ (now.Truncate tol).unixNano + unixToInternal * 1000000000) ∧
    ((∃ info, decryptClientInfo dec tol fr now = some (info, none)) →
      now.unixNano - tol < int64 (BigEndian.Uint64 (slice p 29 37)) * 1000000000 ∧
        int64 (BigEndian.Uint64 (slice p 29 37)) * 1000000000 < now.unixNano + tol) := by
  have hmain := decryptClientInfo_of_plaintext dec tol fr now p hlen hdec
  have hb := Truncate_bounds now tol htol
  have hiff : (∃ info, decryptClientInfo dec tol fr now = some (info, none)) ↔
      ((now.Truncate tol).unixNano < int64 (BigEndian.Uint64 (slice p 29 37)) * 1000000000 ∧
        int64 (BigEndian.Uint64 (slice p 29 37)) * 1000000000 < now.unixNano + tol) := by
    constructor
    · rintro ⟨info, h⟩
      by_contra hw
      rw [hmain, if_neg hw] at h
      simp at h
    · intro hw
      rw [hmain, if_pos hw]
      exact ⟨_, rfl⟩
  refine ⟨hiff, hb, ?_⟩
  intro hacc
  have hw := hiff.mp hacc
  constructor <;> omega

/-- The hypotheses of C3 hold for the sample plaintext at a tolerance of 180 s. -/
theorem decryptClientInfo_accepts_iff_witness :
    sampleNow.unixNano - sampleTolerance < 1000000000 * 1000000000 ∧
      1000000000 * 1000000000 < sampleNow.unixNano + sampleTolerance :=
  (decryptClientInfo_accepts_iff (decryptsTo (samplePlaintext sampleName 1000000000 2))
    sampleTolerance sampleFragments sampleNow (samplePlaintext sampleName 1000000000 2)
    (by decide) (by decide) rfl).2.2 ⟨_, decryptClientInfo_decodes_sample⟩

/-- Claim C4. With `registerRandom` the check-and-insert of the replay set: if
`AuthFirstPacket` accepts a first packet, then the same packet on the resulting state is
answered with `ErrReplay`; and in every sequence of later calls on that server, whatever
the packets and clock readings, every call whose packet carries the same ephemeral public
key is answered with `ErrReplay`, so no key is accepted twice. -/
theorem AuthFirstPacket_accepts_key_once {ρ : Type} (deps : Deps ρ) (firstPacket : List Byte)
    (sta : State) (r : AuthResult ρ)
    (hrun : AuthFirstPacket deps firstPacket sta = Outcome.returned r) (hacc : r.err = none) :
    (∃ r2, AuthFirstPacket deps firstPacket r.sta = Outcome.returned r2 ∧
      r2.err = some GoError.ErrReplay) ∧
    (∀ (steps : List (List Byte × Time)) (j : Nat) (o : Outcome ρ) (pj : List Byte × Time),
      (runAuth deps r.sta steps)[j]? = some o → steps[j]? = some pj →
      extractedKey deps pj.1 sta.staticPv = extractedKey deps firstPacket sta.staticPv →
      ∃ rj, o = Outcome.returned rj ∧ rj.err = some GoError.ErrReplay) := by
  obtain ⟨k, hkey, _, hsta⟩ := AuthFirstPacket_accepted_key deps firstPacket sta r hrun hacc
  have hpv : r.sta.staticPv = sta.staticPv := by rw [hsta]
  have hk : k ∈ r.sta.usedRandom := by rw [hsta]; exact List.mem_cons_self _ _
  constructor
  · obtain ⟨r2, h2, herr, _⟩ :=
      AuthFirstPacket_replay_of_key deps firstPacket r.sta k (by rw [hpv]; exact hkey) hk
    exact ⟨r2, h2, herr⟩
  · intro steps j o pj hj hstep hsame
    exact runAuth_replay deps steps r.sta k hk j o pj hj hstep
      (by rw [hpv, hsame]; exact hkey)

/-- The hypotheses of C4 hold for the sample packet on the sample state, which is accepted;
its replay is answered with `ErrReplay`. -/
theorem AuthFirstPacket_accepts_key_once_witness :
    ∃ r2, AuthFirstPacket (sampleDeps (decryptsTo (samplePlaintext sampleName 1000000000 2)))
        samplePacket sampleAccepted.sta = Outcome.returned r2 ∧
      r2.err = some GoError.ErrReplay :=
  (AuthFirstPacket_accepts_key_once
    (sampleDeps (decryptsTo (samplePlaintext sampleName 1000000000 2))) samplePacket
    sampleState sampleAccepted (by rfl) rfl).1

/-- Claim C5. For every recognised first packet whose extraction succeeds: if
`registerRandom` returns true, `AuthFirstPacket` returns `ErrReplay` with a zero
`ClientInfo`, whatever the AEAD step and the tolerance are, and `decryptClientInfo` is not
called; in every case the calls made are extraction, then `registerRandom` on the extracted
key, then at most `decryptClientInfo`; and the state left behind is the one `registerRandom`
produced, in which the key is registered. -/
theorem AuthFirstPacket_replay_check_precedes_decrypt {ρ : Type} (deps : Deps ρ) (b : Byte)
    (rest : List Byte) (sta : State) (transport : Transport) (fragments : authFragments)
    (finisher : Option ρ) (hdet : detectTransport b = some transport)
    (hext : deps.processFirstPacket transport (b :: rest) sta.staticPv
      = (fragments, finisher, none)) :
    ((registerRandom sta fragments.randPubKey).1 = true →
      ∀ (dec : Decrypter) (tol : Duration),
        AuthFirstPacket { deps with AESGCMDecrypt := dec, TIMESTAMP_TOLERANCE := tol }
            (b :: rest) sta
          = Outcome.returned
              { info := ClientInfo.zero, finisher := finisher, err := some GoError.ErrReplay,
                sta := (registerRandom sta fragments.randPubKey).2,
                calls := [Call.processFirstPacket transport,
                          Call.registerRandom fragments.randPubKey] }) ∧
    ((AuthFirstPacket deps (b :: rest) sta).calls
        = [Call.processFirstPacket transport, Call.registerRandom fragments.randPubKey] ∨
      (AuthFirstPacket deps (b :: rest) sta).calls
        = [Call.processFirstPacket transport, Call.registerRandom fragments.randPubKey,
           Call.decryptClientInfo fragments]) ∧
    (AuthFirstPacket deps (b :: rest) sta).sta = (registerRandom sta fragments.randPubKey).2 ∧
    fragments.randPubKey ∈ (AuthFirstPacket deps (b :: rest) sta).sta.usedRandom := by
  have hsta : (AuthFirstPacket deps (b :: rest) sta).sta
      = (registerRandom sta fragments.randPubKey).2 := by
    simp only [AuthFirstPacket, hdet, hext]
    split
    · rfl
    · split
      · rfl
      · rfl
      · split
        · rfl
        · rfl
  refine ⟨?_, ?_, hsta, ?_⟩
  · intro hused dec tol
    have hmem : fragments.randPubKey ∈ sta.usedRandom := by
      simpa [registerRandom] using hused
    exact AuthFirstPacket_replayed
      { deps with AESGCMDecrypt := dec, TIMESTAMP_TOLERANCE := tol } b rest sta transport
      fragments finisher hdet hext hmem
  · simp only [AuthFirstPacket, hdet, hext]
    split
    · left; rfl
    · split
      · right; rfl
      · right; rfl
      · split
        · right; rfl
        · right; rfl
  · rw [hsta]
    simp [registerRandom]

/-- The hypotheses of C5 hold for the sample packet when its key is already in the replay
set; the AEAD step is swapped for one that fails and the result is still `ErrReplay`. -/
theorem AuthFirstPacket_replay_check_precedes_decrypt_witness :
    AuthFirstPacket (sampleDeps decryptFails) samplePacket
        { sampleState with usedRandom := [List.replicate 32 5] }
      = Outcome.returned
          { info := ClientInfo.zero, finisher := some (), err := some GoError.ErrReplay,
            sta := { sampleState with usedRandom := [List.replicate 32 5, List.replicate 32 5] },
            calls := [Call.processFirstPacket Transport.TLS,
                      Call.registerRandom (List.replicate 32 5)] } :=
  (AuthFirstPacket_replay_check_precedes_decrypt
    (sampleDeps (decryptsTo (samplePlaintext sampleName 1000000000 2))) 0x16
    (List.replicate 32 5 ++ List.replicate 64 3)
    { sampleState with usedRandom := [List.replicate 32 5] } Transport.TLS
    { sharedSecret := List.replicate 32 1, randPubKey := List.replicate 32 5,
      ciphertextWithTag := List.replicate 64 3 }
    (some ()) (by decide) (by rfl)).1 (by decide) decryptFails sampleTolerance

/-- Counterexample to C6 as stated. For the sample packet and an AEAD step that fails,
`AuthFirstPacket` returns the error built by
`fmt.Errorf("transport %v in correct format but not Cloak: %v", transport, err)`, which is
not the value `ErrUnreconisedProtocol` that an unrecognised leading byte gets. -/
theorem decrypt_failure_error_is_distinct :
    AuthFirstPacket (sampleDeps decryptFails) samplePacket sampleState
      = Outcome.returned
          { info := ClientInfo.zero, finisher := some (),
            err := some (GoError.Errorf "transport %v in correct format but not Cloak: %v"
              [FmtArg.transport Transport.TLS,
               FmtArg.error (GoError.foreign "cipher: message authentication failed")]),
            sta := { sampleState with usedRandom := [List.replicate 32 5] },
            calls := [Call.processFirstPacket Transport.TLS,
                      Call.registerRandom (List.replicate 32 5),
                      Call.decryptClientInfo
                        { sharedSecret := List.replicate 32 1,
                          randPubKey := List.replicate 32 5,
                          ciphertextWithTag := List.replicate 64 3 }] } ∧
    GoError.Errorf "transport %v in correct format but not Cloak: %v"
        [FmtArg.transport Transport.TLS,
         FmtArg.error (GoError.foreign "cipher: message authentication failed")]
      ≠ GoError.ErrUnreconisedProtocol ∧
    AuthFirstPacket (sampleDeps decryptFails) (0x00 :: List.replicate 96 3) sampleState
      = Outcome.returned
          { info := ClientInfo.zero, finisher := none,
            err := some GoError.ErrUnreconisedProtocol, sta := sampleState, calls := [] } :=
  ⟨by rfl, by simp, by rfl⟩

/-- Claim C6, amended. For every recognised first packet whose extraction succeeds and
whose blob fails AEAD decryption with error `e`, `AuthFirstPacket` returns a zero
`ClientInfo` and a non-`nil` error that is not `ErrUnreconisedProtocol`: for a fresh key
it is `fmt.Errorf("transport %v in correct format but not Cloak: %v", transport, e)`, for
an already registered key it is `ErrReplay`. -/
theorem AuthFirstPacket_decrypt_failure {ρ : Type} (deps : Deps ρ) (b : Byte)
    (rest : List Byte) (sta : State) (transport : Transport) (fragments : authFragments)
    (finisher : Option ρ) (e : GoError) (hdet : detectTransport b = some transport)
    (hext : deps.processFirstPacket transport (b :: rest) sta.staticPv
      = (fragments, finisher, none))
    (hdec : deps.AESGCMDecrypt (slice fragments.randPubKey 0 12) fragments.sharedSecret
      fragments.ciphertextWithTag = .error e) :
    ∃ r, AuthFirstPacket deps (b :: rest) sta = Outcome.returned r ∧
      r.info = ClientInfo.zero ∧ r.err ≠ none ∧
      r.err ≠ some GoError.ErrUnreconisedProtocol ∧
      (fragments.randPubKey ∉ sta.usedRandom →
        r.err = some (GoError.Errorf "transport %v in correct format but not Cloak: %v"
          [FmtArg.transport transport, FmtArg.error e])) ∧
      (fragments.randPubKey ∈ sta.usedRandom → r.err = some GoError.ErrReplay) := by
  by_cases hused : fragments.randPubKey ∈ sta.usedRandom
  · refine ⟨_, AuthFirstPacket_replayed deps b rest sta transport fragments finisher hdet hext
      hused, rfl, by simp, by simp, ?_, ?_⟩
    · intro h; exact absurd hused h
    · intro _; rfl
  · have h := AuthFirstPacket_fresh deps b rest sta transport fragments finisher hdet hext hused
    rw [decryptClientInfo_error _ _ _ _ e hdec] at h
    refine ⟨_, h, rfl, by simp, by simp, ?_, ?_⟩
    · intro _; rfl
    · intro h2; exact absurd h2 hused

/-- The hypotheses of the amended C6 hold for the sample packet and a failing AEAD step. -/
theorem AuthFirstPacket_decrypt_failure_witness :
    ∃ r, AuthFirstPacket (sampleDeps decryptFails) samplePacket sampleState
        = Outcome.returned r ∧
      r.info = ClientInfo.zero ∧ r.err ≠ none ∧
      r.err ≠ some GoError.ErrUnreconisedProtocol ∧
      (List.replicate 32 5 ∉ sampleState.usedRandom →
        r.err = some (GoError.Errorf "transport %v in correct format but not Cloak: %v"
          [FmtArg.transport Transport.TLS,
           FmtArg.error (GoError.foreign "cipher: message authentication failed")])) ∧
      (List.replicate 32 5 ∈ sampleState.usedRandom → r.err = some GoError.ErrReplay) :=
  AuthFirstPacket_decrypt_failure (sampleDeps decryptFails) 0x16
    (List.replicate 32 5 ++ List.replicate 64 3) sampleState Transport.TLS
    { sharedSecret := List.replicate 32 1, randPubKey := List.replicate 32 5,
      ciphertextWithTag := List.replicate 64 3 }
    (some ()) (GoError.foreign "cipher: message authentication failed") (by decide) (by rfl)
    (by rfl)

/-- Claim C7. For every first packet and server state: when `AuthFirstPacket` returns a
`nil` error, the `ProxyMethod` it returns is bytes 16..28 of the decrypted plaintext after
`bytes.Trim` and is a key of `sta.ProxyBook`; and whenever extraction succeeds,
`registerRandom` returns false and `decryptClientInfo` returns a `nil` error with a
`ProxyMethod` that is not a key of `sta.ProxyBook`, the error returned is
`ErrBadProxyMethod`. -/
theorem AuthFirstPacket_ProxyMethod_check {ρ : Type} (deps : Deps ρ) (pkt : List Byte)
    (sta : State) :
    (∀ r, AuthFirstPacket deps pkt sta = Outcome.returned r → r.err = none →
      r.info.ProxyMethod ∈ sta.ProxyBook ∧
      ∃ b rest transport p, pkt = b :: rest ∧ detectTransport b = some transport ∧
        deps.AESGCMDecrypt
            (slice (deps.processFirstPacket transport pkt sta.staticPv).1.randPubKey 0 12)
            (deps.processFirstPacket transport pkt sta.staticPv).1.sharedSecret
            (deps.processFirstPacket transport pkt sta.staticPv).1.ciphertextWithTag
          = .ok p ∧
        r.info.ProxyMethod = bytes.Trim (slice p 16 28) 0) ∧
    (∀ b rest transport fragments finisher info, pkt = b :: rest →
      detectTransport b = some transport →
      deps.processFirstPacket transport pkt sta.staticPv = (fragments, finisher, none) →
      (registerRandom sta fragments.randPubKey).1 = false →
      decryptClientInfo deps.AESGCMDecrypt deps.TIMESTAMP_TOLERANCE fragments sta.Now
        = some (info, none) →
      info.ProxyMethod ∉ sta.ProxyBook →
      ∃ r, AuthFirstPacket deps pkt sta = Outcome.returned r ∧
        r.err = some GoError.ErrBadProxyMethod) := by
  constructor
  · intro r hrun hacc
    obtain ⟨b, rest, hpkt, hcases⟩ := AuthFirstPacket_returned_cases deps pkt sta r hrun
    rcases hcases with ⟨_, _, _, herr⟩ | ⟨transport, hdet, _, hcases⟩
    · rw [herr] at hacc; simp at hacc
    · rcases hcases with ⟨e, _, _, herr⟩ | ⟨_, _, _, herr⟩ | ⟨_, _, hcases⟩
      · rw [herr] at hacc; simp at hacc
      · rw [herr] at hacc; simp at hacc
      · rcases hcases with ⟨e, _, herr⟩ | ⟨_, _, herr⟩ | ⟨info, hinfo, hbook, hr, _⟩
        · rw [herr] at hacc; simp at hacc
        · rw [herr] at hacc; simp at hacc
        · obtain ⟨p, hp, htrim⟩ := decryptClientInfo_ok_ProxyMethod _ _ _ _ info hinfo
          have hpm : r.info.ProxyMethod = info.ProxyMethod := by rw [hr]
          refine ⟨by rw [hpm]; exact hbook, b, rest, transport, p, hpkt, hdet, hp, ?_⟩
          rw [hpm]; exact htrim
  · intro b rest transport fragments finisher info hpkt hdet hext hreg hinfo hbook
    subst hpkt
    have hfresh : fragments.randPubKey ∉ sta.usedRandom := by
      simpa [registerRandom] using hreg
    have h := AuthFirstPacket_fresh deps b rest sta transport fragments finisher hdet hext
      hfresh
    rw [hinfo] at h
    simp only at h
    rw [if_neg hbook] at h
    exact ⟨_, h, rfl⟩

/-- The second part of C7 at a concrete input: the proxy method `unk` is not in the
sample proxy book. -/
theorem AuthFirstPacket_ProxyMethod_check_witness :
    ∃ r, AuthFirstPacket (sampleDeps (decryptsTo (samplePlaintext [117, 110, 107] 1000000000 0)))
        samplePacket sampleState = Outcome.returned r ∧
      r.err = some GoError.ErrBadProxyMethod :=
  (AuthFirstPacket_ProxyMethod_check
    (sampleDeps (decryptsTo (samplePlaintext [117, 110, 107] 1000000000 0))) samplePacket
    sampleState).2 0x16 (List.replicate 32 5 ++ List.replicate 64 3) Transport.TLS
    { sharedSecret := List.replicate 32 1, randPubKey := List.replicate 32 5,
      ciphertextWithTag := List.replicate 64 3 }
    (some ())
    { UID := sampleUID, SessionId := 0x01020304, ProxyMethod := [117, 110, 107],
      EncryptionMethod := 1, Unordered := false, Transport := none }
    rfl (by decide) (by rfl) (by decide) (by rfl) (by decide)

/-- Counterexample to C8 as stated. On a replayed key `AuthFirstPacket` returns `ErrReplay`
together with the non-`nil` finisher the extraction produced; on a timestamp outside the
window it returns an error together with a `ClientInfo` holding the decoded UID, proxy
method, encryption method and unordered flag; on an unknown proxy method it returns
`ErrBadProxyMethod` together with the fully decoded `ClientInfo`. -/
theorem rejection_keeps_finisher_and_info :
    AuthFirstPacket (sampleDeps decryptFails) samplePacket
        { sampleState with usedRandom := [List.replicate 32 5] }
      = Outcome.returned
          { info := ClientInfo.zero, finisher := some (), err := some GoError.ErrReplay,
            sta := { sampleState with usedRandom := [List.replicate 32 5, List.replicate 32 5] },
            calls := [Call.processFirstPacket Transport.TLS,
                      Call.registerRandom (List.replicate 32 5)] } ∧
    AuthFirstPacket (sampleDeps (decryptsTo (samplePlaintext sampleName 1000000180 1)))
        samplePacket sampleState
      = Outcome.returned
          { info := { UID := sampleUID, SessionId := 0, ProxyMethod := sampleName,
                      EncryptionMethod := 1, Unordered := true, Transport := none },
            finisher := some (),
            err := some (GoError.Errorf "transport %v in correct format but not Cloak: %v"
              [FmtArg.transport Transport.TLS,
               FmtArg.error (GoError.Errorf "%v: received timestamp %v"
                 [FmtArg.error GoError.ErrTimestampOutOfWindow, FmtArg.int 1000000180])]),
            sta := { sampleState with usedRandom := [List.replicate 32 5] },
            calls := [Call.processFirstPacket Transport.TLS,
                      Call.registerRandom (List.replicate 32 5),
                      Call.decryptClientInfo
                        { sharedSecret := List.replicate 32 1,
                          randPubKey := List.replicate 32 5,
                          ciphertextWithTag := List.replicate 64 3 }] } ∧
    AuthFirstPacket (sampleDeps (decryptsTo (samplePlaintext [117, 110, 107] 1000000000 0)))
        samplePacket sampleState
      = Outcome.returned
          { info := { UID := sampleUID, SessionId := 0x01020304, ProxyMethod := [117, 110, 107],
                      EncryptionMethod := 1, Unordered := false, Transport := none },
            finisher := some (), err := some GoError.ErrBadProxyMethod,
            sta := { sampleState with usedRandom := [List.replicate 32 5] },
            calls := [Call.processFirstPacket Transport.TLS,
                      Call.registerRandom (List.replicate 32 5),
                      Call.decryptClientInfo
                        { sharedSecret := List.replicate 32 1,
                          randPubKey := List.replicate 32 5,
                          ciphertextWithTag := List.replicate 64 3 }] } :=
  ⟨by rfl, by rfl, by rfl⟩

/-- Claim C8, amended. Whenever `AuthFirstPacket` returns a non-`nil` error, the
`Transport` of the returned `ClientInfo` is `nil`. On an unrecognised leading byte the
`ClientInfo` is the zero value and the finisher is `nil`. On a recognised leading byte the
finisher is the one `processFirstPacket` returned, and the `ClientInfo` is the zero value
or the one `decryptClientInfo` returned; it is the zero value whenever the rejection comes
before `decryptClientInfo` is called. -/
theorem AuthFirstPacket_rejection_results {ρ : Type} (deps : Deps ρ) (pkt : List Byte)
    (sta : State) (r : AuthResult ρ)
    (hrun : AuthFirstPacket deps pkt sta = Outcome.returned r) (herr : r.err ≠ none) :
    r.info.Transport = none ∧
    ∃ b rest, pkt = b :: rest ∧
      (detectTransport b = none → r.info = ClientInfo.zero ∧ r.finisher = none) ∧
      (∀ transport, detectTransport b = some transport →
        r.finisher = (deps.processFirstPacket transport pkt sta.staticPv).2.1 ∧
        (r.info = ClientInfo.zero ∨
          ∃ e, decryptClientInfo deps.AESGCMDecrypt deps.TIMESTAMP_TOLERANCE
            (deps.processFirstPacket transport pkt sta.staticPv).1 sta.Now
              = some (r.info, e)) ∧
        ((∀ c ∈ r.calls, c ≠ Call.decryptClientInfo
            (deps.processFirstPacket transport pkt sta.staticPv).1) →
          r.info = ClientInfo.zero)) := by
  obtain ⟨b, rest, hpkt, hcases⟩ := AuthFirstPacket_returned_cases deps pkt sta r hrun
  rcases hcases with ⟨hdet, hinfo, hfin, _⟩ | ⟨transport, hdet, hfin, hcases⟩
  · refine ⟨by rw [hinfo]; rfl, b, rest, hpkt, fun _ => ⟨hinfo, hfin⟩, ?_⟩
    intro t ht
    rw [hdet] at ht
    simp at ht
  · have key : r.info.Transport = none ∧
        (r.info = ClientInfo.zero ∨
          ∃ e, decryptClientInfo deps.AESGCMDecrypt deps.TIMESTAMP_TOLERANCE
            (deps.processFirstPacket transport pkt sta.staticPv).1 sta.Now
              = some (r.info, e)) ∧
        ((∀ c ∈ r.calls, c ≠ Call.decryptClientInfo
            (deps.processFirstPacket transport pkt sta.staticPv).1) →
          r.info = ClientInfo.zero) := by
      rcases hcases with ⟨e, _, hinfo, _⟩ | ⟨_, _, hinfo, _⟩ | ⟨hnone, hfresh, hcases⟩
      · exact ⟨by rw [hinfo]; rfl, Or.inl hinfo, fun _ => hinfo⟩
      · exact ⟨by rw [hinfo]; rfl, Or.inl hinfo, fun _ => hinfo⟩
      · have hcalls : Call.decryptClientInfo
            (deps.processFirstPacket transport pkt sta.staticPv).1 ∈ r.calls := by
          subst hpkt
          rcases hext : deps.processFirstPacket transport (b :: rest) sta.staticPv with
            ⟨fragments, finisher, eo⟩
          rw [hext] at hnone hfresh
          simp only at hnone hfresh
          subst hnone
          have h := AuthFirstPacket_fresh deps b rest sta transport fragments finisher hdet
            hext hfresh
          rw [hrun] at h
          split at h
          · simp at h
          · simp only [Outcome.returned.injEq] at h; rw [h]; simp
          · split at h
            · simp only [Outcome.returned.injEq] at h; rw [h]; simp
            · simp only [Outcome.returned.injEq] at h; rw [h]; simp
        rcases hcases with ⟨e, hinfo, _⟩ | ⟨hinfo, _, _⟩ | ⟨info, _, _, _, hnoerr⟩
        · exact ⟨decryptClientInfo_Transport _ _ _ _ _ _ hinfo, Or.inr ⟨_, hinfo⟩,
            fun h => absurd rfl (h _ hcalls)⟩
        · exact ⟨decryptClientInfo_Transport _ _ _ _ _ _ hinfo, Or.inr ⟨_, hinfo⟩,
            fun h => absurd rfl (h _ hcalls)⟩
        · exact absurd hnoerr herr
    refine ⟨key.1, b, rest, hpkt, ?_, ?_⟩
    · intro hnone
      rw [hdet] at hnone
      simp at hnone
    · intro t ht
      rw [hdet] at ht
      simp only [Option.some.injEq] at ht
      subst ht
      exact ⟨hfin, key.2.1, key.2.2⟩

/-- The hypotheses of the amended C8 hold for the sample packet with a timestamp outside
the window. -/
theorem AuthFirstPacket_rejection_results_witness :
    ({ UID := sampleUID, SessionId := 0, ProxyMethod := sampleName, EncryptionMethod := 1,
       Unordered := true, Transport := none } : ClientInfo).Transport = none :=
  (AuthFirstPacket_rejection_results
    (sampleDeps (decryptsTo (samplePlaintext sampleName 1000000180 1))) samplePacket sampleState
    { info := { UID := sampleUID, SessionId := 0, ProxyMethod := sampleName,
                EncryptionMethod := 1, Unordered := true, Transport := none },
      finisher := some (),
      err := some (GoError.Errorf "transport %v in correct format but not Cloak: %v"
        [FmtArg.transport Transport.TLS,
         FmtArg.error (GoError.Errorf "%v: received timestamp %v"
           [FmtArg.error GoError.ErrTimestampOutOfWindow, FmtArg.int 1000000180])]),
      sta := { sampleState with usedRandom := [List.replicate 32 5] },
      calls := [Call.processFirstPacket Transport.TLS,
                Call.registerRandom (List.replicate 32 5),
                Call.decryptClientInfo
                  { sharedSecret := List.replicate 32 1, randPubKey := List.replicate 32 5,
                    ciphertextWithTag := List.replicate 64 3 }] }
    (by rfl) (by simp)).1

/-- Counterexample to C9 as stated. For a plaintext whose bytes 16..28 are
`00 73 73 00 .. 00`, `decryptClientInfo` returns the proxy method `73 73`, while removing
only the trailing NUL bytes leaves `00 73 73`. -/
theorem ProxyMethod_leading_NUL_trimmed :
    decryptClientInfo (decryptsTo (samplePlaintext [0, 115, 115] 1000000000 0))
        sampleTolerance sampleFragments sampleNow
      = some ({ UID := sampleUID, SessionId := 0x01020304, ProxyMethod := [115, 115],
                EncryptionMethod := 1, Unordered := false, Transport := none }, none) ∧
    specTrimTrailingNUL (slice (samplePlaintext [0, 115, 115] 1000000000 0) 16 28)
      = [0, 115, 115] :=
  ⟨by rfl, by decide⟩

/-- Claim C9, amended. For every decrypted plaintext `p` of at least 42 bytes,
`decryptClientInfo` returns, and the `ProxyMethod` it returns is `p[16..28)` with the
leading and the trailing NUL bytes removed (embedded NUL bytes are kept): `p[16..28)` is
some NUL bytes, then `ProxyMethod`, then some NUL bytes, and `ProxyMethod` neither starts
nor ends with NUL. The returned `UID` is `p[0..16)` unchanged. -/
theorem decryptClientInfo_UID_ProxyMethod (dec : Decrypter) (tol : Duration)
    (fr : authFragments) (now : Time) (p : List Byte) (hlen : 42 ≤ p.length)
    (hdec : dec (slice fr.randPubKey 0 12) fr.sharedSecret fr.ciphertextWithTag = .ok p) :
    ∃ info err, decryptClientInfo dec tol fr now = some (info, err) ∧
      info.UID = slice p 0 16 ∧
      ∃ k m : Nat,
        slice p 16 28 = List.replicate k 0 ++ info.ProxyMethod ++ List.replicate m 0 ∧
        (∀ x ∈ info.ProxyMethod.head?, x ≠ 0) ∧ (∀ x ∈ info.ProxyMethod.getLast?, x ≠ 0) := by
  have hmain := decryptClientInfo_of_plaintext dec tol fr now p hlen hdec
  obtain ⟨k, m, h1, h2, h3⟩ := Trim_spec (slice p 16 28)
  by_cases hw : (now.Truncate tol).unixNano
        < int64 (BigEndian.Uint64 (slice p 29 37)) * 1000000000 ∧
      int64 (BigEndian.Uint64 (slice p 29 37)) * 1000000000 < now.unixNano + tol
  · rw [hmain, if_pos hw]
    exact ⟨_, _, rfl, rfl, k, m, h1, h2, h3⟩
  · rw [hmain, if_neg hw]
    exact ⟨_, _, rfl, rfl, k, m, h1, h2, h3⟩

/-- The hypotheses of the amended C9 hold for a plaintext whose method field is
`00 73 00 73` followed by NUL bytes. -/
theorem decryptClientInfo_UID_ProxyMethod_witness :
    ∃ info err, decryptClientInfo (decryptsTo (samplePlaintext [0, 115, 0, 115] 1000000000 0))
        sampleTolerance sampleFragments sampleNow = some (info, err) ∧
      info.UID = slice (samplePlaintext [0, 115, 0, 115] 1000000000 0) 0 16 ∧
      ∃ k m : Nat,
        slice (samplePlaintext [0, 115, 0, 115] 1000000000 0) 16 28
          = List.replicate k 0 ++ info.ProxyMethod ++ List.replicate m 0 ∧
        (∀ x ∈ info.ProxyMethod.head?, x ≠ 0) ∧ (∀ x ∈ info.ProxyMethod.getLast?, x ≠ 0) :=
  decryptClientInfo_UID_ProxyMethod (decryptsTo (samplePlaintext [0, 115, 0, 115] 1000000000 0))
    sampleTolerance sampleFragments sampleNow (samplePlaintext [0, 115, 0, 115] 1000000000 0)
    (by decide) rfl

/-- Claim C10, the code at the failing input. The `hidden` header value is the base64 text
of 96 bytes followed by `!`; decoding reports corrupt input next to the 96 bytes decoded
before it, and `WebSocket.handshake` returns a `nil` error, the authentication info made
from those 96 bytes and a finisher. -/
theorem handshake_accepts_corrupt_base64 :
    StdEncoding.DecodeString sampleHidden
      = (List.replicate 96 65, some (GoError.foreign "base64.CorruptInputError")) ∧
    WebSocket.handshake sampleWSDeps sampleGET (List.replicate 32 1)
      = ({ sharedSecret := List.replicate 32 66
           nonce := List.replicate 12 65
           ciphertextWithTag := List.replicate 64 65 },
         some { reqPacket := sampleGET, sharedSecret := List.replicate 32 66 },
         none) :=
  ⟨by rfl, by rfl⟩

/-! ### `unmarshalHidden`, the finisher, `SplitConfigs` and `ssvToJson` -/

theorem AuthFirstPacket_calls_head {ρ : Type} (deps : Deps ρ) (b : Byte) (rest : List Byte)
    (sta : State) (transport : Transport) (hdet : detectTransport b = some transport) :
    (AuthFirstPacket deps (b :: rest) sta).calls.head?
      = some (Call.processFirstPacket transport) := by
  simp only [AuthFirstPacket, hdet]
  split
  · rfl
  · split
    · rfl
    · split
      · rfl
      · rfl
      · split
        · rfl
        · rfl

theorem toyAEAD_correct (n k p : List Byte) :
    ∃ c, toyEncrypt n k p = .ok c ∧ c.length = p.length + 16 ∧ toyDecrypt n k c = .ok p := by
  refine ⟨_, rfl, by simp, ?_⟩
  have hmap : List.map ((fun b : Byte => b - k.head?.getD 0) ∘ fun b => b + k.head?.getD 0) p
      = p := by
    have hfun : ((fun b : Byte => b - k.head?.getD 0) ∘ fun b => b + k.head?.getD 0) = id := by
      funext b
      simp
    rw [hfun, List.map_id]
  simp [toyDecrypt, hmap]

theorem SplitConfigs_encryptionMethod_spec (deps : SplitDeps) (raw : rawConfig) :
    (deps.ToLower raw.EncryptionMethod = ascii "plain" →
      SplitConfigs_encryptionMethod deps raw = some deps.E_METHOD_PLAIN) ∧
    (deps.ToLower raw.EncryptionMethod = ascii "aes-gcm" →
      SplitConfigs_encryptionMethod deps raw = some deps.E_METHOD_AES_GCM) ∧
    (deps.ToLower raw.EncryptionMethod = ascii "chacha20-poly1305" →
      SplitConfigs_encryptionMethod deps raw = some deps.E_METHOD_CHACHA20_POLY1305) ∧
    (¬ (deps.ToLower raw.EncryptionMethod = ascii "plain" ∨
        deps.ToLower raw.EncryptionMethod = ascii "aes-gcm" ∨
        deps.ToLower raw.EncryptionMethod = ascii "chacha20-poly1305") →
      SplitConfigs_encryptionMethod deps raw = none) := by
  have d1 : ascii "aes-gcm" ≠ ascii "plain" := by decide
  have d2 : ascii "chacha20-poly1305" ≠ ascii "plain" := by decide
  have d3 : ascii "chacha20-poly1305" ≠ ascii "aes-gcm" := by decide
  unfold SplitConfigs_encryptionMethod
  refine ⟨?_, ?_, ?_, ?_⟩
  · intro h; rw [if_pos h]
  · intro h; rw [h, if_neg d1, if_pos rfl]
  · intro h; rw [h, if_neg d2, if_neg d3, if_pos rfl]
  · intro h
    rw [not_or, not_or] at h
    rw [if_neg h.1, if_neg h.2.1, if_neg h.2.2]

theorem SplitConfigs_of_empty_ProxyMethod (deps : SplitDeps) (raw : rawConfig)
    (h1 : raw.ServerName ≠ []) (h2 : raw.ProxyMethod = []) :
    SplitConfigs deps raw = SplitConfigs_nullErr "ServerName" := by
  simp [SplitConfigs, h1, h2]

theorem replaceFrom_of_not_mem (h : Byte) (t new s : List Byte) (hs : h ∉ s) :
    strings.replaceFrom (h :: t) new 0 s = s := by
  induction s with
  | nil => rfl
  | cons c rest ih =>
    have hc : ¬ h = c := fun e => hs (by simp [e])
    have hrest : h ∉ rest := fun e => hs (List.mem_cons_of_mem _ e)
    simp [strings.replaceFrom, List.isPrefixOf, hc, ih hrest]

theorem unescape_of_no_backslash (s : List Byte) (h : (92 : Byte) ∉ s) :
    ssvToJson_unescape s = s := by
  have a1 : ascii "\\\\" = [92, 92] := by decide
  have a2 : ascii "\\=" = [92, 61] := by decide
  have a3 : ascii "\\;" = [92, 59] := by decide
  unfold ssvToJson_unescape strings.Replace
  rw [a1, a2, a3, replaceFrom_of_not_mem 92 [92] _ s h, replaceFrom_of_not_mem 92 [61] _ s h,
    replaceFrom_of_not_mem 92 [59] _ s h]

theorem Split_ne_nil (s : List Byte) (sep : Byte) : strings.Split s sep ≠ [] := by
  induction s with
  | nil => simp [strings.Split]
  | cons c rest ih =>
    unfold strings.Split
    split
    · simp
    · split <;> simp

theorem Split_of_not_mem (seg : List Byte) (sep : Byte) (h : sep ∉ seg) :
    strings.Split seg sep = [seg] := by
  induction seg with
  | nil => rfl
  | cons c rest ih =>
    have hc : ¬ c = sep := fun e => h (by simp [e])
    have hrest : sep ∉ rest := fun e => h (List.mem_cons_of_mem _ e)
    simp [strings.Split, hc, ih hrest]

theorem Split_append (seg rest : List Byte) (sep : Byte) (h : sep ∉ seg) :
    strings.Split (seg ++ sep :: rest) sep = seg :: strings.Split rest sep := by
  induction seg with
  | nil => simp [strings.Split]
  | cons c more ih =>
    have hc : ¬ c = sep := fun e => h (by simp [e])
    have hmore : sep ∉ more := fun e => h (List.mem_cons_of_mem _ e)
    simp [strings.Split, hc, ih hmore]

theorem SplitN2_item (k v : List Byte) (h : (61 : Byte) ∉ k) :
    strings.SplitN2 (k ++ 61 :: v) 61 = [k, v] := by
  have hk : ∀ c ∈ k, (c != (61 : Byte)) = true := by
    intro c hc
    simp only [bne_iff_ne, ne_eq]
    intro e
    exact h (e ▸ hc)
  have hd : (k ++ 61 :: v).dropWhile (fun c => c != (61 : Byte)) = 61 :: v := by
    rw [List.dropWhile_append_of_pos hk]
    simp [List.dropWhile_cons]
  have ht : (k ++ 61 :: v).takeWhile (fun c => c != (61 : Byte)) = k := by
    rw [List.takeWhile_append_of_pos hk]
    simp [List.takeWhile_cons]
  unfold strings.SplitN2
  rw [hd, ht]

theorem ssvToJson_elem_eq (v : List Byte) (l : List (List Byte)) :
    ssvToJson_elem v l = decide (v ∈ l) := by
  induction l with
  | nil => simp [ssvToJson_elem]
  | cons a rest ih =>
    unfold ssvToJson_elem
    by_cases h : v = a
    · simp [h]
    · simp [h, ih]

theorem ssvText_cons_cons (kv kv2 : List Byte × List Byte)
    (rest : List (List Byte × List Byte)) :
    ssvText (kv :: kv2 :: rest) = ssvItem kv ++ ascii ";" ++ ssvText (kv2 :: rest) := rfl

theorem jsonEntries_cons_cons (kv kv2 : List Byte × List Byte)
    (rest : List (List Byte × List Byte)) :
    jsonEntries (kv :: kv2 :: rest) = jsonEntry kv ++ ascii "," ++ jsonEntries (kv2 :: rest) :=
  rfl

theorem mem_ssvItem (kv : List Byte × List Byte) (c : Byte) (h : c ∈ ssvItem kv) :
    c = 61 ∨ c ∈ kv.1 ∨ c ∈ kv.2 := by
  have a : ascii "=" = [61] := by decide
  simp only [ssvItem, a, List.mem_append, List.mem_singleton] at h
  tauto

theorem mem_ssvText (pairs : List (List Byte × List Byte)) (c : Byte)
    (h : c ∈ ssvText pairs) : c = 59 ∨ ∃ kv ∈ pairs, c ∈ ssvItem kv := by
  induction pairs with
  | nil => simp [ssvText] at h
  | cons kv rest ih =>
    cases rest with
    | nil =>
      right
      exact ⟨kv, by simp, by simpa [ssvText] using h⟩
    | cons kv2 more =>
      have a : ascii ";" = [59] := by decide
      rw [ssvText_cons_cons, a] at h
      simp only [List.mem_append, List.mem_singleton] at h
      rcases h with (h | h) | h
      · right; exact ⟨kv, by simp, h⟩
      · left; exact h
      · rcases ih h with h' | ⟨x, hx, hc⟩
        · left; exact h'
        · right; exact ⟨x, List.mem_cons_of_mem _ hx, hc⟩

theorem Split_ssvText (pairs : List (List Byte × List Byte)) (tail : List Byte)
    (hne : pairs ≠ []) (h59 : ∀ kv ∈ pairs, (59 : Byte) ∉ ssvItem kv) :
    strings.Split (ssvText pairs ++ 59 :: tail) 59
        = pairs.map ssvItem ++ strings.Split tail 59 ∧
      strings.Split (ssvText pairs) 59 = pairs.map ssvItem := by
  induction pairs with
  | nil => exact absurd rfl hne
  | cons kv rest ih =>
    have hkv : (59 : Byte) ∉ ssvItem kv := h59 kv (by simp)
    cases rest with
    | nil =>
      constructor
      · simpa [ssvText] using Split_append (ssvItem kv) tail 59 hkv
      · simpa [ssvText] using Split_of_not_mem (ssvItem kv) 59 hkv
    | cons kv2 more =>
      have a : ascii ";" = [59] := by decide
      have ih' := ih (by simp) (fun x hx => h59 x (List.mem_cons_of_mem _ hx))
      rw [ssvText_cons_cons, a]
      constructor
      · have e : ssvItem kv ++ [59] ++ ssvText (kv2 :: more) ++ 59 :: tail
            = ssvItem kv ++ 59 :: (ssvText (kv2 :: more) ++ 59 :: tail) := by simp
        rw [e, Split_append _ _ 59 hkv, ih'.1]
        simp
      · have e : ssvItem kv ++ [59] ++ ssvText (kv2 :: more)
            = ssvItem kv ++ 59 :: ssvText (kv2 :: more) := by simp
        rw [e, Split_append _ _ 59 hkv, ih'.2]
        simp

theorem ssvToJson_loop_items (pairs : List (List Byte × List Byte)) (tail : List (List Byte))
    (ret : List Byte) (h61 : ∀ kv ∈ pairs, (61 : Byte) ∉ kv.1) :
    ssvToJson_loop (pairs.map ssvItem ++ tail) ret
      = ssvToJson_loop tail
          (ret ++ (pairs.map (fun kv => jsonEntry kv ++ ascii ",")).flatten) := by
  induction pairs generalizing ret with
  | nil => simp
  | cons kv rest ih =>
    have a : ascii "=" = [61] := by decide
    have hk : (61 : Byte) ∉ kv.1 := h61 kv (by simp)
    have hitem : ssvItem kv = kv.1 ++ 61 :: kv.2 := by simp [ssvItem, a]
    have hne : ¬ ssvItem kv = [] := by rw [hitem]; simp
    have hsp : strings.SplitN2 (ssvItem kv) 61 = [kv.1, kv.2] := by
      rw [hitem]; exact SplitN2_item kv.1 kv.2 hk
    have ih' := fun r => ih r (fun x hx => h61 x (List.mem_cons_of_mem _ hx))
    simp only [List.map_cons, List.cons_append, List.flatten_cons]
    rw [ssvToJson_loop]
    simp only [hne, if_false, hsp, ssvToJson_elem_eq]
    by_cases hq : kv.1 ∈ ssvToJson_unquoted
    · have hq' : kv.1 ∈ [ascii "NumConn", ascii "StreamTimeout", ascii "KeepAlive",
          ascii "UDP"] := hq
      simp only [hq, decide_True, if_true, ih', jsonEntry, hq']
      simp [List.append_assoc]
    · have hq' : ¬ kv.1 ∈ [ascii "NumConn", ascii "StreamTimeout", ascii "KeepAlive",
          ascii "UDP"] := hq
      have hqc : ascii "\"," = ascii "\"" ++ ascii "," := by decide
      simp only [hq, decide_False, ih', jsonEntry, hq']
      simp [List.append_assoc, hqc]

theorem flatten_entries (pairs : List (List Byte × List Byte)) (hne : pairs ≠ []) :
    (pairs.map (fun kv => jsonEntry kv ++ ascii ",")).flatten
      = jsonEntries pairs ++ ascii "," := by
  induction pairs with
  | nil => exact absurd rfl hne
  | cons kv rest ih =>
    cases rest with
    | nil => simp [jsonEntries]
    | cons kv2 more =>
      rw [jsonEntries_cons_cons, List.map_cons, List.flatten_cons, ih (by simp)]
      simp [List.append_assoc]

theorem ssvToJson_of_lines (s : List Byte) (pairs : List (List Byte × List Byte))
    (tail : List (List Byte)) (hne : pairs ≠ []) (h92 : (92 : Byte) ∉ s)
    (hsplit : strings.Split s 59 = pairs.map ssvItem ++ tail)
    (htail : tail = [] ∨ tail = [[]]) (h61 : ∀ kv ∈ pairs, (61 : Byte) ∉ kv.1) :
    ssvToJson s = some (jsonObject pairs) := by
  have hloop : ssvToJson_loop tail
      (ascii "\x7b" ++ (pairs.map (fun kv => jsonEntry kv ++ ascii ",")).flatten)
        = some (ascii "\x7b" ++ (pairs.map (fun kv => jsonEntry kv ++ ascii ",")).flatten) := by
    rcases htail with h | h <;> subst h <;> simp [ssvToJson_loop]
  have ac : ascii "," = [44] := by decide
  unfold ssvToJson
  rw [unescape_of_no_backslash s h92, hsplit, ssvToJson_loop_items pairs tail _ h61, hloop,
    flatten_entries pairs hne]
  simp only [jsonObject]
  have hlen : ¬ (ascii "\x7b" ++ (jsonEntries pairs ++ ascii ",")).length = 0 := by
    simp [ac]
  rw [if_neg hlen]
  have htake : (ascii "\x7b" ++ (jsonEntries pairs ++ ascii ",")).take
      ((ascii "\x7b" ++ (jsonEntries pairs ++ ascii ",")).length - 1)
        = ascii "\x7b" ++ jsonEntries pairs := by
    rw [← List.append_assoc, ac]
    have : (ascii "\x7b" ++ jsonEntries pairs ++ [44]).length - 1
        = (ascii "\x7b" ++ jsonEntries pairs).length := by simp
    rw [this, List.take_left]
  rw [htake]

/-! ## The claims, continued -/

/-- Claim C11. For every byte string `hidden`, `unmarshalHidden` returns a `nil` error if
and only if `len(hidden) = 96` and `hidden[0..32)` unmarshals to a public key. A shorter
input yields `ErrBadGET`; an input of at least 96 bytes whose key does not unmarshal yields
`ErrInvalidPubKey`; a longer input with a valid key yields the error
`fmt.Errorf("%v: %v", ErrCiphertextLength, len(hidden) - 32)`. On success the nonce is
`hidden[0..12)`, which is the first 12 bytes of the key `hidden[0..32)`, the ciphertext
with tag is `hidden[32..96)` and the shared secret is the agreement of the static private
key with the unmarshalled key. -/
theorem unmarshalHidden_succeeds_iff (deps : WSDeps) (hidden staticPv : List Byte) :
    ((unmarshalHidden deps hidden staticPv).2 = none ↔
      hidden.length = 96 ∧ (deps.Unmarshal (slice hidden 0 32)).isSome = true) ∧
    (hidden.length < 96 →
      (unmarshalHidden deps hidden staticPv).2 = some GoError.ErrBadGET) ∧
    (96 ≤ hidden.length → deps.Unmarshal (slice hidden 0 32) = none →
      (unmarshalHidden deps hidden staticPv).2 = some GoError.ErrInvalidPubKey) ∧
    (96 < hidden.length → (deps.Unmarshal (slice hidden 0 32)).isSome = true →
      (unmarshalHidden deps hidden staticPv).2
        = some (GoError.Errorf "%v: %v"
            [FmtArg.error GoError.ErrCiphertextLength,
             FmtArg.int ((hidden.length - 32 : Nat) : Int)])) ∧
    (∀ ephPub, hidden.length = 96 → deps.Unmarshal (slice hidden 0 32) = some ephPub →
      unmarshalHidden deps hidden staticPv
        = ({ sharedSecret := deps.GenerateSharedSecret staticPv ephPub
             nonce := slice hidden 0 12
             ciphertextWithTag := slice hidden 32 96 }, none) ∧
      slice hidden 0 12 = slice (slice hidden 0 32) 0 12) := by
  have hlenct : (slice hidden 32 hidden.length).length = hidden.length - 32 := by
    simp [slice]
  refine ⟨?_, ?_, ?_, ?_, ?_⟩
  · unfold unmarshalHidden
    by_cases h1 : hidden.length < 96
    · simp only [h1, if_true]
      constructor
      · intro h; simp at h
      · intro h; omega
    · simp only [h1, if_false]
      cases hk : deps.Unmarshal (slice hidden 0 32) with
      | none => simp
      | some ephPub =>
        by_cases h2 : hidden.length - 32 = 64
        · simp [hlenct, h2]
          omega
        · simp [hlenct, h2]
          omega
  · intro h1
    simp [unmarshalHidden, h1]
  · intro h1 hk
    have : ¬ hidden.length < 96 := by omega
    simp [unmarshalHidden, this, hk]
  · intro h1 hk
    have h0 : ¬ hidden.length < 96 := by omega
    obtain ⟨ephPub, hk⟩ := Option.isSome_iff_exists.mp hk
    have h2 : hidden.length - 32 ≠ 64 := by omega
    simp [unmarshalHidden, h0, hk, hlenct, h2]
  · intro ephPub h1 hk
    have h0 : ¬ hidden.length < 96 := by omega
    constructor
    · have h64 : (slice hidden 32 96).length = 64 := by
        rw [← h1, hlenct, h1]
      simp [unmarshalHidden, h0, hk, h1, h64]
    · simp [slice, List.take_take]

/-- Claim C12, the code at the failing input. On the empty first packet `AuthFirstPacket`
does not return: `firstPacket[0]` is out of range and the call panics, before any
collaborator is called and with the state untouched. -/
theorem AuthFirstPacket_empty_packet_panics {ρ : Type} (deps : Deps ρ) (sta : State) :
    AuthFirstPacket deps [] sta = Outcome.panicked sta [] :=
  rfl

/-- Claim C13. For every non-empty first packet, the extraction `AuthFirstPacket` runs is
that of the TLS transport iff the first byte is `0x16` and that of the WebSocket transport
iff the first byte is `0x47`; for any other first byte it returns `ErrUnreconisedProtocol`
with a zero `ClientInfo` and a `nil` finisher, makes no call at all (no extraction, no
`registerRandom`) and leaves the server state as it was. -/
theorem AuthFirstPacket_transport_selection {ρ : Type} (deps : Deps ρ) (b : Byte)
    (rest : List Byte) (sta : State) :
    ((AuthFirstPacket deps (b :: rest) sta).calls.head?
        = some (Call.processFirstPacket Transport.TLS) ↔ b = 0x16) ∧
    ((AuthFirstPacket deps (b :: rest) sta).calls.head?
        = some (Call.processFirstPacket Transport.WebSocket) ↔ b = 0x47) ∧
    (b ≠ 0x16 → b ≠ 0x47 →
      AuthFirstPacket deps (b :: rest) sta = Outcome.returned
        { info := ClientInfo.zero, finisher := none,
          err := some GoError.ErrUnreconisedProtocol, sta := sta, calls := [] }) := by
  by_cases h47 : b = 0x47
  · have hdet : detectTransport b = some Transport.WebSocket := by simp [detectTransport, h47]
    have hcalls := AuthFirstPacket_calls_head deps b rest sta _ hdet
    subst h47
    refine ⟨?_, ?_, ?_⟩
    · rw [hcalls]; simp
    · rw [hcalls]; simp
    · intro _ h; exact absurd rfl h
  · by_cases h16 : b = 0x16
    · have hdet : detectTransport b = some Transport.TLS := by simp [detectTransport, h16]
      have hcalls := AuthFirstPacket_calls_head deps b rest sta _ hdet
      subst h16
      refine ⟨?_, ?_, ?_⟩
      · rw [hcalls]; simp
      · rw [hcalls]; simp
      · intro h; exact absurd rfl h
    · have hdet : detectTransport b = none := by simp [detectTransport, h47, h16]
      have hun := AuthFirstPacket_unrecognised deps b rest sta hdet
      refine ⟨?_, ?_, ?_⟩
      · rw [hun]; simp [Outcome.calls, h16]
      · rw [hun]; simp [Outcome.calls, h47]
      · intro _ _; exact hun

/-- Claim C14. Assuming the AEAD primitive is correct (encryption succeeds, adds 16 bytes,
and decryption under the same key and nonce gives the plaintext back): for every shared
secret, every 12-byte nonce and every 32-byte session key, the reply the WebSocket
finisher hands to `Write` is `nonce ‖ AESGCMEncrypt(nonce, sharedSecret, sessionKey)`, is
60 bytes long, and decrypting `reply[12..]` under the shared secret with the nonce
`reply[0..12)` gives the session key back. -/
theorem finisher_reply_round_trip (enc : Encrypter) (dec : Decrypter) (fin : wsFinisher)
    (nonce sessionKey : List Byte) (writeErr : Option GoError)
    (haead : ∀ n k p, ∃ c, enc n k p = .ok c ∧ c.length = p.length + 16 ∧ dec n k c = .ok p)
    (hnonce : nonce.length = 12) (hkey : sessionKey.length = 32) :
    ∃ reply encryptedKey, enc nonce fin.sharedSecret sessionKey = .ok encryptedKey ∧
      (wsFinisher.call enc fin nonce writeErr sessionKey).written = some reply ∧
      reply = nonce ++ encryptedKey ∧ reply.length = 60 ∧
      slice reply 0 12 = nonce ∧
      dec (slice reply 0 12) fin.sharedSecret (reply.drop 12) = .ok sessionKey := by
  obtain ⟨c, hc, hlen, hd⟩ := haead nonce fin.sharedSecret sessionKey
  have hs : slice (nonce ++ c) 0 12 = nonce := by
    simp [slice, ← hnonce]
  have hdrop : (nonce ++ c).drop 12 = c := by
    rw [← hnonce, List.drop_left]
  refine ⟨nonce ++ c, c, hc, ?_, rfl, ?_, hs, ?_⟩
  · unfold wsFinisher.call
    rw [hc]
    cases writeErr <;> rfl
  · simp [hnonce, hlen, hkey]
  · rw [hs, hdrop]; exact hd

/-- The hypotheses of C14 hold for the stand-in AEAD, a nonce of 12 bytes and a session
key of 32 bytes. -/
theorem finisher_reply_round_trip_witness :
    ∃ reply encryptedKey,
      toyEncrypt (List.replicate 12 7) (List.replicate 32 66) (List.replicate 32 1)
        = .ok encryptedKey ∧
      (wsFinisher.call toyEncrypt { reqPacket := sampleGET, sharedSecret := List.replicate 32 66 }
        (List.replicate 12 7) none (List.replicate 32 1)).written = some reply ∧
      reply = List.replicate 12 7 ++ encryptedKey ∧ reply.length = 60 ∧
      slice reply 0 12 = List.replicate 12 7 ∧
      toyDecrypt (slice reply 0 12) (List.replicate 32 66) (reply.drop 12)
        = .ok (List.replicate 32 1) :=
  finisher_reply_round_trip toyEncrypt toyDecrypt
    { reqPacket := sampleGET, sharedSecret := List.replicate 32 66 }
    (List.replicate 12 7) (List.replicate 32 1) none toyAEAD_correct (by decide) (by decide)

/-- Claim C15. For every `rawConfig`, `SplitConfigs` returns a `nil` error if and only if
`ServerName`, `ProxyMethod`, `RemoteHost`, `RemotePort`, `LocalHost` and `LocalPort` are
non-empty, `UID` and `PublicKey` are non-empty, `PublicKey` unmarshals, `NumConn` is not 0
and the lower-cased `EncryptionMethod` is one of `plain`, `aes-gcm`, `chacha20-poly1305`;
every other `EncryptionMethod` is therefore rejected, and on success the three names give
`E_METHOD_PLAIN`, `E_METHOD_AES_GCM` and `E_METHOD_CHACHA20_POLY1305` respectively. -/
theorem SplitConfigs_accepts_iff (deps : SplitDeps) (raw : rawConfig) :
    ((SplitConfigs deps raw).err = none ↔
      raw.ServerName ≠ [] ∧ raw.ProxyMethod ≠ [] ∧ raw.RemoteHost ≠ [] ∧
      raw.RemotePort ≠ [] ∧ raw.LocalHost ≠ [] ∧ raw.LocalPort ≠ [] ∧
      raw.UID ≠ [] ∧ raw.PublicKey ≠ [] ∧ (deps.Unmarshal raw.PublicKey).isSome = true ∧
      raw.NumConn ≠ 0 ∧
      (deps.ToLower raw.EncryptionMethod = ascii "plain" ∨
        deps.ToLower raw.EncryptionMethod = ascii "aes-gcm" ∨
        deps.ToLower raw.EncryptionMethod = ascii "chacha20-poly1305")) ∧
    ((SplitConfigs deps raw).err = none →
      ∃ auth, (SplitConfigs deps raw).auth = some auth ∧
        (deps.ToLower raw.EncryptionMethod = ascii "plain" →
          auth.EncryptionMethod = deps.E_METHOD_PLAIN) ∧
        (deps.ToLower raw.EncryptionMethod = ascii "aes-gcm" →
          auth.EncryptionMethod = deps.E_METHOD_AES_GCM) ∧
        (deps.ToLower raw.EncryptionMethod = ascii "chacha20-poly1305" →
          auth.EncryptionMethod = deps.E_METHOD_CHACHA20_POLY1305)) := by
  obtain ⟨e1, e2, e3, e4⟩ := SplitConfigs_encryptionMethod_spec deps raw
  by_cases h1 : raw.ServerName = []
  · simp [SplitConfigs, SplitConfigs_nullErr, h1]
  by_cases h2 : raw.ProxyMethod = []
  · simp [SplitConfigs, SplitConfigs_nullErr, h1, h2]
  by_cases h3 : raw.UID = []
  · simp [SplitConfigs, SplitConfigs_nullErr, h1, h2, h3]
  by_cases h4 : raw.PublicKey = []
  · simp [SplitConfigs, SplitConfigs_nullErr, h1, h2, h3, h4]
  cases hk : deps.Unmarshal raw.PublicKey with
  | none => simp [SplitConfigs, SplitConfigs_nullErr, h1, h2, h3, h4, hk]
  | some pub =>
    by_cases he : deps.ToLower raw.EncryptionMethod = ascii "plain" ∨
        deps.ToLower raw.EncryptionMethod = ascii "aes-gcm" ∨
        deps.ToLower raw.EncryptionMethod = ascii "chacha20-poly1305"
    · obtain ⟨m, hm, hm1, hm2, hm3⟩ : ∃ m, SplitConfigs_encryptionMethod deps raw = some m ∧
          (deps.ToLower raw.EncryptionMethod = ascii "plain" → m = deps.E_METHOD_PLAIN) ∧
          (deps.ToLower raw.EncryptionMethod = ascii "aes-gcm" → m = deps.E_METHOD_AES_GCM) ∧
          (deps.ToLower raw.EncryptionMethod = ascii "chacha20-poly1305" →
            m = deps.E_METHOD_CHACHA20_POLY1305) := by
        rcases he with h | h | h
        · refine ⟨_, e1 h, fun _ => rfl, fun h' => ?_, fun h' => ?_⟩
          · rw [h] at h'; exact absurd h' (by decide)
          · rw [h] at h'; exact absurd h' (by decide)
        · refine ⟨_, e2 h, fun h' => ?_, fun _ => rfl, fun h' => ?_⟩
          · rw [h] at h'; exact absurd h' (by decide)
          · rw [h] at h'; exact absurd h' (by decide)
        · refine ⟨_, e3 h, fun h' => ?_, fun h' => ?_, fun _ => rfl⟩
          · rw [h] at h'; exact absurd h' (by decide)
          · rw [h] at h'; exact absurd h' (by decide)
      by_cases h5 : raw.RemoteHost = []
      · simp [SplitConfigs, SplitConfigs_nullErr, h1, h2, h3, h4, hk, hm, h5]
      by_cases h6 : raw.RemotePort = []
      · simp [SplitConfigs, SplitConfigs_nullErr, h1, h2, h3, h4, hk, hm, h5, h6]
      by_cases h7 : raw.NumConn = 0
      · simp [SplitConfigs, SplitConfigs_nullErr, h1, h2, h3, h4, hk, hm, h5, h6, h7]
      by_cases h8 : raw.LocalHost = []
      · simp [SplitConfigs, SplitConfigs_nullErr, h1, h2, h3, h4, hk, hm, h5, h6, h7, h8]
      by_cases h9 : raw.LocalPort = []
      · simp [SplitConfigs, SplitConfigs_nullErr, h1, h2, h3, h4, hk, hm, h5, h6, h7, h8, h9]
      have hres : (SplitConfigs deps raw).err = none ∧
          ∃ auth, (SplitConfigs deps raw).auth = some auth ∧ auth.EncryptionMethod = m := by
        simp [SplitConfigs, h1, h2, h3, h4, hk, hm, h5, h6, h7, h8, h9]
      obtain ⟨hnone, auth, hauth, hmeth⟩ := hres
      refine ⟨?_, ?_⟩
      · simp [hnone, h1, h2, h3, h4, h5, h6, h7, h8, h9, he]
      · intro _
        exact ⟨auth, hauth, fun h => hmeth.trans (hm1 h), fun h => hmeth.trans (hm2 h),
          fun h => hmeth.trans (hm3 h)⟩
    · have hnone := e4 he
      simp [SplitConfigs, SplitConfigs_nullErr, h1, h2, h3, h4, hk, hnone, he]

/-- Claim C16, the code at the failing input. The sample configuration is accepted and has
`KeepAlive = 30`, and the `remote.KeepAlive` that `SplitConfigs` returns is 0, not 30
seconds. -/
theorem SplitConfigs_KeepAlive_lost :
    SplitConfigs sampleSplitDeps sampleRaw
      = { loc := some { LocalAddr := ascii "127.0.0.1:1984", Timeout := 300 * Second }
          remote := some
            { RemoteAddr := ascii "1.2.3.4:443", NumConn := 4,
              Transport := some (clientTransport.DirectTLS browser.Chrome), KeepAlive := 0 }
          auth := some
            { UID := sampleUID, Unordered := false, MockDomain := ascii "www.bing.com",
              ProxyMethod := ascii "shadowsocks", ServerPubKey := some (List.replicate 32 9),
              EncryptionMethod := 1 }
          err := none } ∧
    sampleRaw.KeepAlive = 30 :=
  ⟨by rfl, by rfl⟩

/-- Claim C17. For every non-empty list of pairs whose keys contain none of `;`, `=` and
backslash and whose values contain no `;` and no backslash (they may contain `=`),
`ssvToJson` applied to `k1=v1;...;kn=vn`, with or without one trailing `;`, returns `{`,
the entries in the same order separated by commas, and `}`; the entry of `ki` is `"ki":vi`
when `ki` is one of `NumConn`, `StreamTimeout`, `KeepAlive`, `UDP` and `"ki":"vi"`
otherwise. -/
theorem ssvToJson_plain_pairs (pairs : List (List Byte × List Byte)) (hne : pairs ≠ [])
    (hkeys : ∀ kv ∈ pairs, ∀ c ∈ kv.1, c ≠ 59 ∧ c ≠ 61 ∧ c ≠ 92)
    (hvalues : ∀ kv ∈ pairs, ∀ c ∈ kv.2, c ≠ 59 ∧ c ≠ 92) :
    ssvToJson (ssvText pairs) = some (jsonObject pairs) ∧
    ssvToJson (ssvText pairs ++ ascii ";") = some (jsonObject pairs) := by
  have a : ascii ";" = [59] := by decide
  have hitem : ∀ kv ∈ pairs, ∀ c ∈ ssvItem kv, c ≠ 59 ∧ c ≠ 92 := by
    intro kv hkv c hc
    rcases mem_ssvItem kv c hc with h | h | h
    · subst h; decide
    · exact ⟨(hkeys kv hkv c h).1, (hkeys kv hkv c h).2.2⟩
    · exact hvalues kv hkv c h
  have h59 : ∀ kv ∈ pairs, (59 : Byte) ∉ ssvItem kv :=
    fun kv hkv hc => (hitem kv hkv 59 hc).1 rfl
  have h61 : ∀ kv ∈ pairs, (61 : Byte) ∉ kv.1 :=
    fun kv hkv hc => (hkeys kv hkv 61 hc).2.1 rfl
  have h92 : (92 : Byte) ∉ ssvText pairs := by
    intro hc
    rcases mem_ssvText pairs 92 hc with h | ⟨kv, hkv, h⟩
    · exact absurd h (by decide)
    · exact (hitem kv hkv 92 h).2 rfl
  have h92' : (92 : Byte) ∉ ssvText pairs ++ ascii ";" := by
    rw [a]
    intro hc
    rcases List.mem_append.mp hc with h | h
    · exact h92 h
    · simp at h
  obtain ⟨hs1, hs2⟩ := Split_ssvText pairs [] hne h59
  constructor
  · exact ssvToJson_of_lines _ pairs [] hne h92 (by simpa using hs2) (Or.inl rfl) h61
  · rw [a] at h92' ⊢
    exact ssvToJson_of_lines _ pairs [[]] hne h92' (by simpa [strings.Split] using hs1)
      (Or.inr rfl) h61

/-- The hypotheses of C17 hold for `ServerName=a.com;NumConn=4;UID=abc=`. -/
theorem ssvToJson_plain_pairs_witness :
    ssvToJson (ascii "ServerName=a.com;NumConn=4;UID=abc=")
        = some (ascii "\x7b\"ServerName\":\"a.com\",\"NumConn\":4,\"UID\":\"abc=\"\x7d") ∧
    ssvToJson (ascii "ServerName=a.com;NumConn=4;UID=abc=;")
        = some (ascii "\x7b\"ServerName\":\"a.com\",\"NumConn\":4,\"UID\":\"abc=\"\x7d") :=
  ssvToJson_plain_pairs
    [(ascii "ServerName", ascii "a.com"), (ascii "NumConn", ascii "4"), (ascii "UID", ascii "abc=")]
    (by decide) (by decide) (by decide)

/-- Claim C18, the code at the failing input. The string `a;b=c` contains both `;` and `=`;
its first segment `a` has no `=`, so `sp[1]` is out of range: `ssvToJson` panics, and so
does `ParseConfig`, whatever the file system and the JSON decoder are. -/
theorem ssvToJson_segment_without_equals_panics (deps : ParseDeps) :
    ssvToJson (ascii "a;b=c") = none ∧
    (strings.Contains (ascii "a;b=c") 59 && strings.Contains (ascii "a;b=c") 61) = true ∧
    ParseConfig deps (ascii "a;b=c") = none := by
  have h1 : ssvToJson (ascii "a;b=c") = none := by decide
  refine ⟨h1, by decide, ?_⟩
  have h2 : (strings.Contains (ascii "a;b=c") 59 && strings.Contains (ascii "a;b=c") 61) = true := by
    decide
  unfold ParseConfig
  rw [if_pos h2, h1]

/-- Claim C19, the code at the failing input. The pair `k`, `a;b=c` is written
`k=a\;b\=c`; `ssvToJson` unescapes before it splits, so it returns the two entries
`"k":"a"` and `"b":"c"` instead of the one entry `"k":"a;b=c"`. The pair `k`, `a;b`,
written `k=a\;b`, makes it panic on the segment `b`. -/
theorem ssvToJson_escaped_semicolon_splits :
    ssvEscapedText [(ascii "k", ascii "a;b=c")] = ascii "k=a\\;b\\=c" ∧
    ssvToJson (ssvEscapedText [(ascii "k", ascii "a;b=c")])
      = some (ascii "\x7b\"k\":\"a\",\"b\":\"c\"\x7d") ∧
    jsonObject [(ascii "k", ascii "a;b=c")] = ascii "\x7b\"k\":\"a;b=c\"\x7d" ∧
    ssvEscapedText [(ascii "k", ascii "a;b")] = ascii "k=a\\;b" ∧
    ssvToJson (ssvEscapedText [(ascii "k", ascii "a;b")]) = none := by
  decide

/-- Claim C20, the code at the failing input. For the sample configuration with an empty
`ProxyMethod` (and a non-empty `ServerName`) the error of `SplitConfigs` is
`fmt.Errorf("%v cannot be empty", "ServerName")`, not the one naming `ProxyMethod`. -/
theorem SplitConfigs_empty_ProxyMethod_names_ServerName :
    SplitConfigs sampleSplitDeps { sampleRaw with ProxyMethod := [] }
      = { loc := none, remote := none, auth := none,
          err := some (GoError.Errorf "%v cannot be empty" [FmtArg.text "ServerName"]) } ∧
    ({ sampleRaw with ProxyMethod := [] } : rawConfig).ServerName ≠ [] :=
  ⟨by rfl, by decide⟩

end Cloak
